import Mathlib

/-!
Verification of the room/session core of the CodeClash repository.

The repository source under verification is the websocket gateway
(RoomsGateway in the rooms module).  The gateway delegates room and
registry bookkeeping to RoomsService, whose implementation is not part of
the provided sources; those operations are modelled from the spec (each
such definition carries a doc comment starting with "Modelled from the
spec:").  Everything in the RoomsGateway namespace below is translated
directly from the gateway source.

Modelling conventions:
 - room identifiers are natural numbers; the distinguished lobby room is
   id 0 (rooms.constants is not in the sources; the gateway uses LOBBY_ID
   and the literal lobby key interchangeably, so they are one constant);
 - socket ids and user names are strings;
 - timer handles (setTimeout / setInterval results) are numeric ids drawn
   from a counter; pending countdown callbacks are kept in a list, and
   clearTimeout removes the entry, which is exactly the single-threaded
   event-loop guarantee that a cleared timeout never runs;
 - broadcasts are reified as an emit list: server.in(room).emit becomes
   Emit.room, client.to(room).emit (which excludes the sender) becomes
   Emit.roomExceptSender, and socket.emit becomes Emit.sock;
 - numeric payload fields are rendered with Nat.repr.
-/

namespace CodeClash

/-- Room lifecycle states of the room state machine. -/
inductive RState where
  | waiting
  | playing
  | over
deriving DecidableEq, Repr

abbrev RoomId := Nat

/-- The distinguished lobby id (LOBBY_ID in rooms.constants, not under the
sources; the gateway also addresses it by the literal lobby key). -/
def LOBBY_ID : RoomId := 0

/-- A member record as stored by the room service, mirroring RoomsUserDto:
socketId, userName, ready, passed, itemList. -/
structure RoomUser where
  socketId : String
  userName : String
  ready : Bool
  passed : Bool
  items : List String
deriving DecidableEq, Repr

/-- A room: display name, capacity, lifecycle state, members, and the two
optional timer handles (round countdown and item-spawn interval). -/
structure Room where
  roomName : String
  capacity : Nat
  state : RState
  users : List RoomUser
  timer : Option Nat
  itemCreator : Option Nat
deriving DecidableEq, Repr

/-- Per-socket data, mirroring socket.data in the gateway: the
authenticated user name (absent until handleConnection succeeds), the
current room id, and the per-round passed flag. -/
structure SocketData where
  user : Option String
  roomId : Option RoomId
  passed : Bool
deriving DecidableEq, Repr

/-- The global state: the room directory, the live sockets, the identity
registry (user name to socket id), the pending countdown callbacks
(timer id and room id), and the two id counters. -/
structure GState where
  rooms : RoomId → Option Room
  sockets : String → Option SocketData
  socketIds : String → Option String
  pending : List (Nat × RoomId)
  nextTimerId : Nat
  nextRoomId : Nat

/-- One reified broadcast. -/
inductive Emit where
  | room (rid : RoomId) (ev : String) (args : List String)
  | roomExceptSender (rid : RoomId) (ev : String) (args : List String)
  | sock (sid : String) (ev : String) (args : List String)
deriving DecidableEq, Repr

/-- Pointwise update of a finite-map-as-function. -/
def fupd {α β : Type} [DecidableEq α] (f : α → β) (a : α) (b : β) : α → β :=
  fun x => if x = a then b else f x

@[simp]
theorem fupd_self {α β : Type} [DecidableEq α] (f : α → β) (a : α) (b : β) :
    fupd f a b a = b := by
  simp [fupd]

theorem fupd_ne {α β : Type} [DecidableEq α] (f : α → β) (a : α) (b : β)
    {x : α} (h : x ≠ a) : fupd f a b x = f x := by
  simp [fupd, h]

/-! ### Service operations (RoomsService is not under the provided sources) -/

namespace RoomsService

/-- Modelled from the spec: RoomsService.exitRoom is not under the sources.
Removes the member from the room; a non-lobby room that becomes empty is
removed from the directory and its pending countdown callbacks are
cancelled; returns whether the room still exists so the caller can choose
between user_exit_room and delete_room. A missing room id is a no-op. -/
def exitRoom (s : GState) (orid : Option RoomId) (n : String) : GState × Bool :=
  match orid with
  | none => (s, false)
  | some rid =>
    match s.rooms rid with
    | none => (s, false)
    | some room =>
      let users := room.users.filter (fun ru => ru.userName != n)
      if users.isEmpty ∧ rid ≠ LOBBY_ID then
        ({ s with rooms := fupd s.rooms rid none,
                  pending := s.pending.filter (fun p => p.2 != rid) }, false)
      else
        ({ s with rooms := fupd s.rooms rid (some { room with users := users }) }, true)

/-- The failures of the enter operation. -/
inductive EnterErr where
  | RoomNotFound
  | RoomFull
deriving DecidableEq, Repr

/-- Modelled from the spec: RoomsService.enterRoom is not under the sources.
Fails with RoomNotFound if the target room does not exist and with RoomFull
if the member count is at least the capacity (the lobby has no capacity
limit); otherwise atomically removes the member from the previous room (if
any, including the lobby) and appends it to the target membership. In the
gateway these failures are thrown and reach the exception filter, which
notifies only the acting connection, so a failure carries no state change
and no broadcast. -/
def enterRoom (s : GState) (rid : RoomId) (prev : Option RoomId) (ru : RoomUser) :
    Except EnterErr GState :=
  match s.rooms rid with
  | none => Except.error EnterErr.RoomNotFound
  | some room =>
    if rid ≠ LOBBY_ID ∧ room.capacity ≤ room.users.length then
      Except.error EnterErr.RoomFull
    else if prev = some rid then
      let users2 := room.users.filter (fun x => x.userName != ru.userName) ++ [ru]
      let room2 := { room with users := users2 }
      Except.ok { s with rooms := fupd s.rooms rid (some room2) }
    else
      let s1 := (exitRoom s prev ru.userName).1
      match s1.rooms rid with
      | none => Except.error EnterErr.RoomNotFound
      | some room1 =>
        let room2 := { room1 with users := room1.users ++ [ru] }
        Except.ok { s1 with rooms := fupd s1.rooms rid (some room2) }

/-- Modelled from the spec: the identity registry of RoomsService is not
under the sources. Records the user-to-socket mapping. -/
def registerSocketId (s : GState) (n : String) (sid : String) : GState :=
  { s with socketIds := fupd s.socketIds n (some sid) }

/-- Modelled from the spec: removes the user-to-socket mapping; idempotent. -/
def deleteSocketId (s : GState) (n : String) : GState :=
  { s with socketIds := fupd s.socketIds n none }

/-- Modelled from the spec: registry lookup. -/
def getSocketId (s : GState) (n : String) : Option String :=
  s.socketIds n

/-- Modelled from the spec: true iff the identity already has a live
connection. -/
def isConnectedUser (s : GState) (n : String) : Bool :=
  (s.socketIds n).isSome

/-- Modelled from the spec: RoomsService.roomInfo is not under the sources;
directory lookup. -/
def roomInfo (s : GState) (rid : RoomId) : Option Room :=
  s.rooms rid

/-- Modelled from the spec: member count of a room. -/
def roomUserCount (s : GState) (rid : RoomId) : Nat :=
  match s.rooms rid with
  | none => 0
  | some room => room.users.length

/-- Modelled from the spec: RoomsService.createRoom is not under the
sources. Allocates a fresh unique id; the room starts waiting with zero
members and no timers. -/
def createRoom (s : GState) (name : String) (cap : Nat) : GState × RoomId :=
  ({ s with
      rooms := fupd s.rooms s.nextRoomId
        (some { roomName := name, capacity := cap, state := RState.waiting,
                users := [], timer := none, itemCreator := none }),
      nextRoomId := s.nextRoomId + 1 },
   s.nextRoomId)

/-- Modelled from the spec: RoomsService.switchReady is not under the
sources. Toggles the readiness of the member and returns the new value so
the caller can broadcast it. -/
def switchReady (s : GState) (rid : RoomId) (n : String) : GState × Bool :=
  match s.rooms rid with
  | none => (s, false)
  | some room =>
    let newReady :=
      match room.users.find? (fun ru => ru.userName == n) with
      | some ru => !ru.ready
      | none => false
    let users := room.users.map
      (fun ru => if ru.userName == n then { ru with ready := newReady } else ru)
    ({ s with rooms := fupd s.rooms rid (some { room with users := users }) }, newReady)

/-- Modelled from the spec: RoomsService.allUserReady is not under the
sources. The spec defines allReady as every member being ready and notes
that the source enforces no explicit minimum membership beyond all-ready,
so no member-count lower bound is modelled. -/
def allUserReady (s : GState) (rid : RoomId) : Bool :=
  match s.rooms rid with
  | none => false
  | some room => room.users.all (fun ru => ru.ready)

/-- Modelled from the spec: RoomsService.allUserPassed is not under the
sources. True iff every member passed this round; the gateway records the
passed flag on the member connection (client.data.passed), so the model
reads it from the socket of each member. -/
def allUserPassed (s : GState) (rid : RoomId) : Bool :=
  match s.rooms rid with
  | none => false
  | some room =>
    room.users.all (fun ru =>
      match s.sockets ru.socketId with
      | some sd => sd.passed
      | none => false)

/-- Modelled from the spec: the countdown timer slot of a room. -/
def getTimer (s : GState) (rid : RoomId) : Option Nat :=
  match s.rooms rid with
  | none => none
  | some room => room.timer

/-- Modelled from the spec: stores a countdown timer handle on the room. -/
def setTimer (s : GState) (rid : RoomId) (t : Nat) : GState :=
  match s.rooms rid with
  | none => s
  | some room =>
    { s with rooms := fupd s.rooms rid (some { room with timer := some t }) }

/-- Modelled from the spec: RoomsService.gameOver is not under the sources.
The gateway performs the timer cancellation and the round-end broadcasts
itself at every call site, so gameOver is modelled as the remaining piece,
the state transition changeState(roomId, over): it marks the room over and
does not touch the stored timer handles. -/
def gameOver (s : GState) (rid : RoomId) : GState :=
  match s.rooms rid with
  | none => s
  | some room =>
    { s with rooms := fupd s.rooms rid (some { room with state := RState.over }) }

/-- Modelled from the spec: RoomsService.changeRoomState is not under the
sources; sets the lifecycle state of the room. -/
def changeRoomState (s : GState) (rid : RoomId) (st : RState) : GState :=
  match s.rooms rid with
  | none => s
  | some room =>
    { s with rooms := fupd s.rooms rid (some { room with state := st }) }

/-- Modelled from the spec: stores the item-spawn interval handle. -/
def setItemCreator (s : GState) (rid : RoomId) (t : Nat) : GState :=
  match s.rooms rid with
  | none => s
  | some room =>
    { s with rooms := fupd s.rooms rid (some { room with itemCreator := some t }) }

/-- Modelled from the spec: RoomsService.kick is not under the sources.
Returns NotAMember without any mutation when the target is not a member of
the room; otherwise removes the target from the membership and returns a
success status. It returns a status value rather than throwing: the
gateway forwards the status to the acting connection in its ack. -/
def kick (s : GState) (rid : RoomId) (target : String) : GState × String :=
  match s.rooms rid with
  | none => (s, "NotAMember")
  | some room =>
    if room.users.any (fun ru => ru.userName == target) then
      let room2 := { room with users := room.users.filter (fun ru => ru.userName != target) }
      ({ s with rooms := fupd s.rooms rid (some room2) }, "success")
    else (s, "NotAMember")

/-- Modelled from the spec: RoomsService.useItem is not under the sources.
Fails with ItemNotOwned when the member inventory lacks the item; otherwise
removes one instance and reports success (the in-game effect of the item is
out of scope). -/
def useItem (s : GState) (rid : RoomId) (n : String) (item : String) : GState × String :=
  match s.rooms rid with
  | none => (s, "ItemNotOwned")
  | some room =>
    match room.users.find? (fun ru => ru.userName == n) with
    | none => (s, "ItemNotOwned")
    | some ru =>
      if item ∈ ru.items then
        let users2 := room.users.map
          (fun x => if x.userName == n then { x with items := x.items.erase item } else x)
        let room2 := { room with users := users2 }
        ({ s with rooms := fupd s.rooms rid (some room2) }, "success")
      else (s, "ItemNotOwned")

end RoomsService

/-! ### The gateway handlers, translated from the RoomsGateway source -/

namespace RoomsGateway

open RoomsService

/-- RoomsGateway.handleConnection: verifies the bearer token, rejects a
duplicate identity, binds the user to the socket and registers the socket
id. Token extraction and verification are external collaborators; their
outcome is the auth parameter (none models a missing or invalid token; the
failure emits use the connection event with a fail status, and in every
failure case the socket is disconnected without any registry change). -/
def handleConnection (s : GState) (sid : String) (auth : Option String) :
    GState × List Emit :=
  match auth with
  | none => (s, [Emit.sock sid "connection" ["fail"]])
  | some n =>
    if isConnectedUser s n then
      (s, [Emit.sock sid "connection" ["fail"]])
    else
      let sd : SocketData := { user := some n, roomId := none, passed := false }
      ({ s with sockets := fupd s.sockets sid (some sd),
                socketIds := fupd s.socketIds n (some sid) }, [])

/-- RoomsGateway.handleDisconnect: a socket without an authenticated user
returns at once; otherwise the user exits its current room, the registry
mapping is removed, and one of user_exit_lobby, user_exit_room or
delete_room is broadcast depending on the room. -/
def handleDisconnect (s : GState) (sid : String) : GState × List Emit :=
  match s.sockets sid with
  | none => (s, [])
  | some sd =>
    match sd.user with
    | none => (s, [])
    | some n =>
      let s1 := (exitRoom s sd.roomId n).1
      let s2 := deleteSocketId s1 n
      match sd.roomId with
      | none => (s2, [])
      | some rid =>
        if rid = LOBBY_ID then
          (s2, [Emit.room rid "user_exit_lobby" [n]])
        else
          match roomInfo s2 rid with
          | some _ => (s2, [Emit.room rid "user_exit_room" [n]])
          | none => (s2, [Emit.room LOBBY_ID "delete_room" [Nat.repr rid]])

/-- RoomsGateway.enterLobby: enters the lobby with a fresh member record,
updates the socket room binding and broadcasts user_enter_lobby to the
other lobby members. A service failure reaches the exception filter, which
notifies only the acting connection. -/
def enterLobbyH (s : GState) (sid : String) : GState × List Emit × String :=
  match s.sockets sid with
  | none => (s, [], "fail")
  | some sd =>
    match sd.user with
    | none => (s, [], "fail")
    | some n =>
      let dto : RoomUser :=
        { socketId := sid, userName := n, ready := false, passed := false, items := [] }
      match enterRoom s LOBBY_ID sd.roomId dto with
      | Except.error _ => (s, [], "fail")
      | Except.ok s1 =>
        let sd2 := { sd with roomId := some LOBBY_ID }
        let s2 := { s1 with sockets := fupd s1.sockets sid (some sd2) }
        (s2, [Emit.roomExceptSender LOBBY_ID "user_enter_lobby" [n]], "success")

/-- RoomsGateway.exitLobby: exits the lobby and broadcasts user_exit_lobby
to the lobby. The socket room binding is not cleared by the source. -/
def exitLobbyH (s : GState) (sid : String) : GState × List Emit × String :=
  match s.sockets sid with
  | none => (s, [], "fail")
  | some sd =>
    match sd.user with
    | none => (s, [], "fail")
    | some n =>
      let s1 := (exitRoom s (some LOBBY_ID) n).1
      (s1, [Emit.room LOBBY_ID "user_exit_lobby" [n]], "success")

/-- RoomsGateway.createRoom: creates a room and broadcasts user_create_room
to the lobby; the creator does not enter the room here. -/
def createRoomH (s : GState) (sid : String) (name : String) (cap : Nat) :
    GState × List Emit × Option RoomId :=
  match s.sockets sid with
  | none => (s, [], none)
  | some sd =>
    match sd.user with
    | none => (s, [], none)
    | some n =>
      let r := RoomsService.createRoom s name cap
      (r.1, [Emit.room LOBBY_ID "user_create_room" [Nat.repr r.2, n]], some r.2)

/-- RoomsGateway.enterRoom: enters the target room via the service (which
atomically leaves the previous room), updates the socket room binding,
broadcasts user_enter_room to the other room members and change_user_count
to the lobby. A service failure is thrown before any of those effects. -/
def enterRoomH (s : GState) (sid : String) (rid : RoomId) :
    GState × List Emit × String :=
  match s.sockets sid with
  | none => (s, [], "fail")
  | some sd =>
    match sd.user with
    | none => (s, [], "fail")
    | some n =>
      let dto : RoomUser :=
        { socketId := sid, userName := n, ready := false, passed := false, items := [] }
      match RoomsService.enterRoom s rid sd.roomId dto with
      | Except.error EnterErr.RoomNotFound => (s, [], "RoomNotFound")
      | Except.error EnterErr.RoomFull => (s, [], "RoomFull")
      | Except.ok s1 =>
        let sd2 := { sd with roomId := some rid }
        let s2 := { s1 with sockets := fupd s1.sockets sid (some sd2) }
        (s2, [Emit.roomExceptSender rid "user_enter_room" [n],
              Emit.room LOBBY_ID "change_user_count"
                [Nat.repr rid, Nat.repr (roomUserCount s2 rid)]], "success")

/-- RoomsGateway.exitRoom: exits the current room; if the room still exists
it broadcasts user_exit_room to the room and change_user_count to the
lobby, otherwise delete_room to the lobby. The socket room binding is not
cleared by the source. The source reads the room id from the socket data;
the handler is modelled only for sockets bound to a room. -/
def exitRoomH (s : GState) (sid : String) : GState × List Emit × String :=
  match s.sockets sid with
  | none => (s, [], "fail")
  | some sd =>
    match sd.user with
    | none => (s, [], "fail")
    | some n =>
      match sd.roomId with
      | none => (s, [], "fail")
      | some rid =>
        let r := exitRoom s (some rid) n
        if r.2 then
          (r.1, [Emit.room rid "user_exit_room" [n],
                 Emit.room LOBBY_ID "change_user_count"
                   [Nat.repr rid, Nat.repr (roomUserCount r.1 rid)]], "success")
        else
          (r.1, [Emit.room LOBBY_ID "delete_room" [Nat.repr rid]], "success")

/-- RoomsGateway.start (private): fetches the round problems (external, out
of scope), creates the item-spawn interval, marks the room playing, stores
the interval handle, and broadcasts start to the room and room_start to the
lobby. -/
def startH (s : GState) (rid : RoomId) : GState × List Emit :=
  let tid := s.nextTimerId
  let s1 := { s with nextTimerId := s.nextTimerId + 1 }
  let s2 := changeRoomState s1 rid RState.playing
  let s3 := setItemCreator s2 rid tid
  (s3, [Emit.room rid "start" [], Emit.room LOBBY_ID "room_start" [Nat.repr rid]])

/-- RoomsGateway.ready: toggles readiness, broadcasts the new value, and
starts the round when the service reports every member ready. -/
def readyH (s : GState) (sid : String) : GState × List Emit :=
  match s.sockets sid with
  | none => (s, [])
  | some sd =>
    match sd.user with
    | none => (s, [])
    | some n =>
      match sd.roomId with
      | none => (s, [])
      | some rid =>
        let r := switchReady s rid n
        let base := [Emit.room rid "ready" [n]]
        if allUserReady r.1 rid then
          let st := startH r.1 rid
          (st.1, base ++ st.2)
        else
          (r.1, base)

/-- RoomsGateway.kick: asks the service to kick the target, then
unconditionally makes the target socket leave, notifies it, and broadcasts
user_exit_room to the room and change_user_count to the lobby; the service
status only flows into the ack. When the target has no live socket the
socket lookup yields an absent handle and the leave call throws before any
emit; the ack is then absent (status none) but the service mutation stays. -/
def kickH (s : GState) (sid : String) (target : String) :
    GState × List Emit × Option String :=
  match s.sockets sid with
  | none => (s, [], none)
  | some sd =>
    match sd.user with
    | none => (s, [], none)
    | some n =>
      match sd.roomId with
      | none => (s, [], none)
      | some rid =>
        let r := RoomsService.kick s rid target
        match getSocketId r.1 target with
        | none => (r.1, [], none)
        | some tsid =>
          (r.1, [Emit.sock tsid "kick" [Nat.repr rid, n],
                 Emit.room rid "user_exit_room" [target],
                 Emit.room LOBBY_ID "change_user_count"
                   [Nat.repr rid, Nat.repr (roomUserCount r.1 rid)]], some r.2)

/-- RoomsGateway.useItem: asks the service to consume the item and
broadcasts the outcome, failures included, to the other room members via
client.to (which excludes the sender); the handler returns nothing to the
acting connection. -/
def useItemH (s : GState) (sid : String) (item : String) : GState × List Emit :=
  match s.sockets sid with
  | none => (s, [])
  | some sd =>
    match sd.user with
    | none => (s, [])
    | some n =>
      match sd.roomId with
      | none => (s, [])
      | some rid =>
        let r := RoomsService.useItem s rid n item
        (r.1, [Emit.roomExceptSender rid "item" [r.2, n, item]])

/-- Schedules the countdown callback of RoomsGateway.pass (the setTimeout
call with the TIME_LIMIT deadline) and returns the fresh handle. -/
def setTimeoutCountdown (s : GState) (rid : RoomId) : GState × Nat :=
  ({ s with pending := s.pending ++ [(s.nextTimerId, rid)],
            nextTimerId := s.nextTimerId + 1 }, s.nextTimerId)

/-- clearTimeout: removes the pending callback of the handle, so a cleared
timeout can never run. -/
def clearTimeoutT (s : GState) (t : Nat) : GState :=
  { s with pending := s.pending.filter (fun q => q.1 != t) }

/-- RoomsGateway.pass: reads the countdown handle, marks the connection
passed, and then: if every member passed and a countdown handle exists, it
clears the countdown, ends the round via gameOver and broadcasts game_over
to the room and room_game_over to the lobby; otherwise, if a countdown
handle exists it returns; otherwise it schedules the countdown callback,
stores the handle and broadcasts countdown. -/
def passH (s : GState) (sid : String) : GState × List Emit :=
  match s.sockets sid with
  | none => (s, [])
  | some sd =>
    match sd.user with
    | none => (s, [])
    | some _ =>
      match sd.roomId with
      | none => (s, [])
      | some rid =>
        let sd2 := { sd with passed := true }
        let s1 := { s with sockets := fupd s.sockets sid (some sd2) }
        match getTimer s rid with
        | some t =>
          if allUserPassed s1 rid then
            (gameOver (clearTimeoutT s1 t) rid,
             [Emit.room rid "game_over" [],
              Emit.room LOBBY_ID "room_game_over" [Nat.repr rid]])
          else
            (s1, [])
        | none =>
          let r := setTimeoutCountdown s1 rid
          let s3 := setTimer r.1 rid r.2
          (s3, [Emit.room rid "countdown" []])

/-- Expiry of a scheduled countdown: the setTimeout body from
RoomsGateway.pass runs only while the handle is still pending (clearTimeout
removes it); the callback itself performs no check at all on the room: it
ends the round via gameOver and broadcasts game_over and room_game_over
unconditionally. -/
def fireTimer (s : GState) (t : Nat) : Option (GState × List Emit) :=
  match s.pending.find? (fun p => p.1 == t) with
  | none => none
  | some p =>
    let s1 := { s with pending := s.pending.filter (fun q => q.1 != t) }
    some (gameOver s1 p.2,
      [Emit.room p.2 "game_over" [],
       Emit.room LOBBY_ID "room_game_over" [Nat.repr p.2]])

end RoomsGateway

/-! ### The action system: one inbound unit of work at a time -/

/-- One unit of work of the single logical worker: a gateway handler
invocation, a connection lifecycle event, or a timer expiry. -/
inductive Act where
  | connect (sid n : String)
  | disconnect (sid : String)
  | enterLobby (sid : String)
  | exitLobby (sid : String)
  | createRoom (sid name : String) (cap : Nat)
  | enterRoom (sid : String) (rid : RoomId)
  | exitRoom (sid : String)
  | ready (sid : String)
  | kick (sid target : String)
  | useItem (sid item : String)
  | pass (sid : String)
  | fire (t : Nat)
deriving DecidableEq, Repr

/-- Applies one action. The transport guarantees that a connect event
carries a fresh socket id (modelled as a no-op on a live id) and that a
disconnect destroys the socket after the handler ran; an expired handle
that was cleared does not fire. -/
def step (s : GState) : Act → GState × List Emit
  | Act.connect sid n =>
    if s.sockets sid = none then RoomsGateway.handleConnection s sid (some n)
    else (s, [])
  | Act.disconnect sid =>
    let r := RoomsGateway.handleDisconnect s sid
    ({ r.1 with sockets := fupd r.1.sockets sid none }, r.2)
  | Act.enterLobby sid =>
    let r := RoomsGateway.enterLobbyH s sid
    (r.1, r.2.1)
  | Act.exitLobby sid =>
    let r := RoomsGateway.exitLobbyH s sid
    (r.1, r.2.1)
  | Act.createRoom sid name cap =>
    let r := RoomsGateway.createRoomH s sid name cap
    (r.1, r.2.1)
  | Act.enterRoom sid rid =>
    let r := RoomsGateway.enterRoomH s sid rid
    (r.1, r.2.1)
  | Act.exitRoom sid =>
    let r := RoomsGateway.exitRoomH s sid
    (r.1, r.2.1)
  | Act.ready sid => RoomsGateway.readyH s sid
  | Act.kick sid target =>
    let r := RoomsGateway.kickH s sid target
    (r.1, r.2.1)
  | Act.useItem sid item => RoomsGateway.useItemH s sid item
  | Act.pass sid => RoomsGateway.passH s sid
  | Act.fire t =>
    match RoomsGateway.fireTimer s t with
    | none => (s, [])
    | some r => r

/-- The lobby room as it exists from process start. -/
def lobbyRoom : Room :=
  { roomName := "lobby", capacity := 0, state := RState.waiting,
    users := [], timer := none, itemCreator := none }

/-- The initial state: only the lobby exists, no sockets, no registry
entries, no pending timers. -/
def init : GState :=
  { rooms := fun r => if r = LOBBY_ID then some lobbyRoom else none,
    sockets := fun _ => none,
    socketIds := fun _ => none,
    pending := [],
    nextTimerId := 0,
    nextRoomId := 1 }

/-- Runs a sequence of actions, returning the final state. -/
def run (s : GState) : List Act → GState
  | [] => s
  | a :: as => run (step s a).1 as

/-- Runs a sequence of actions, returning the final state and every emit
in order. -/
def runE (s : GState) : List Act → GState × List Emit
  | [] => (s, [])
  | a :: as =>
    let r := step s a
    let rest := runE r.1 as
    (rest.1, r.2 ++ rest.2)

/-- The member names of a room. -/
def memberNames (room : Room) : List String :=
  room.users.map (fun ru => ru.userName)

/-! ### Concrete scenarios used by the claims -/

/-- A single user connects, reaches the lobby, creates a room of capacity
four, enters it, and toggles ready. -/
def trace1 : List Act :=
  [Act.connect "s1" "A", Act.enterLobby "s1", Act.createRoom "s1" "r" 4,
   Act.enterRoom "s1" 1, Act.ready "s1"]

/-- Two users gather in a room, both ready up (which starts the round), the
first passes (which starts the countdown with handle 1), the countdown
expires, and then the second passes. -/
def trace2 : List Act :=
  [Act.connect "s1" "A", Act.enterLobby "s1", Act.connect "s2" "B",
   Act.enterLobby "s2", Act.createRoom "s1" "r" 4, Act.enterRoom "s1" 1,
   Act.enterRoom "s2" 1, Act.ready "s1", Act.ready "s2", Act.pass "s1",
   Act.fire 1, Act.pass "s2"]

/-- Two users gather in a room of capacity four; no round is running. -/
def trace3 : List Act :=
  [Act.connect "s1" "A", Act.enterLobby "s1", Act.connect "s2" "B",
   Act.enterLobby "s2", Act.createRoom "s1" "r" 4, Act.enterRoom "s1" 1,
   Act.enterRoom "s2" 1]

/-- One user alone in a fresh room, with a second user still in the lobby. -/
def trace4 : List Act :=
  [Act.connect "s1" "A", Act.enterLobby "s1", Act.connect "s2" "B",
   Act.enterLobby "s2", Act.createRoom "s1" "r" 4, Act.enterRoom "s1" 1]

/-! ### Claim C10 -/

/-- Claim C10: a disconnect of a socket with no authenticated user bound to
it performs no state mutation at all and emits nothing. -/
theorem c10_disconnect_without_user_is_noop (s : GState) (sid : String)
    (h : s.sockets sid = none ∨ ∃ sd, s.sockets sid = some sd ∧ sd.user = none) :
    RoomsGateway.handleDisconnect s sid = (s, []) := by
  rcases h with h | ⟨sd, hs, hu⟩
  · simp [RoomsGateway.handleDisconnect, h]
  · simp [RoomsGateway.handleDisconnect, hs, hu]

/-- A concrete state with one live socket whose handshake never completed. -/
def c10state : GState :=
  let sd : SocketData := { user := none, roomId := some 3, passed := false }
  { init with sockets := fupd init.sockets "s1" (some sd) }

/-- Witness for C10 at a concrete socket without a user. -/
theorem c10_witness :
    RoomsGateway.handleDisconnect c10state "s1" = (c10state, []) :=
  c10_disconnect_without_user_is_noop c10state "s1"
    (Or.inr ⟨{ user := none, roomId := some 3, passed := false }, by decide, rfl⟩)

/-! ### Claim C6 -/

/-- Claim C6: entering a non-existent room fails with RoomNotFound, and
entering a full room (member count at least capacity) fails with RoomFull;
in both cases the whole state, in particular the room membership and the
acting socket room binding, is unchanged and no broadcast is emitted. -/
theorem c6_enter_failures (s : GState) (sid : String) (rid : RoomId)
    (sd : SocketData) (n : String)
    (hs : s.sockets sid = some sd) (hu : sd.user = some n) :
    (s.rooms rid = none →
      RoomsGateway.enterRoomH s sid rid = (s, [], "RoomNotFound")) ∧
    (∀ room, s.rooms rid = some room → rid ≠ LOBBY_ID →
      room.capacity ≤ room.users.length →
      RoomsGateway.enterRoomH s sid rid = (s, [], "RoomFull")) := by
  constructor
  · intro hnone
    simp [RoomsGateway.enterRoomH, hs, hu, RoomsService.enterRoom, hnone]
  · intro room hroom hlob hfull
    simp [RoomsGateway.enterRoomH, hs, hu, RoomsService.enterRoom, hroom, hlob, hfull]

/-- A concrete state with a full room (capacity one, one member) and a
spare connected user in the lobby. -/
def c6state : GState := run init
  [Act.connect "s1" "A", Act.enterLobby "s1", Act.connect "s2" "B",
   Act.enterLobby "s2", Act.createRoom "s1" "f" 1, Act.enterRoom "s1" 1]

/-- Witness for C6: at the concrete state, entering the missing room 9
fails with RoomNotFound and entering the full room 1 fails with RoomFull,
each with no state change and no emits. -/
theorem c6_witness :
    RoomsGateway.enterRoomH c6state "s2" 9 = (c6state, [], "RoomNotFound") ∧
    RoomsGateway.enterRoomH c6state "s2" 1 = (c6state, [], "RoomFull") := by
  refine ⟨(c6_enter_failures c6state "s2" 9 ⟨some "B", some LOBBY_ID, false⟩ "B"
    (by decide) rfl).1 (by decide), ?_⟩
  exact (c6_enter_failures c6state "s2" 1 ⟨some "B", some LOBBY_ID, false⟩ "B"
    (by decide) rfl).2
    { roomName := "f", capacity := 1, state := RState.waiting,
      users := [{ socketId := "s1", userName := "A", ready := false,
                  passed := false, items := [] }],
      timer := none, itemCreator := none }
    (by decide) (by decide) (by decide)

/-! ### Claim C1 -/

/-- The state reached by trace1: a playing room with a single member that
has not passed, and no countdown running. -/
def c1state : GState := run init trace1

/-- Claim C1 counterexample: in a playing room with no countdown running, a
pass that makes every member passed does not end the round: the gateway
fast path requires a live countdown handle, so the room stays playing and a
countdown is started instead of game_over. -/
theorem c1_counterexample :
    RoomsService.getTimer c1state 1 = none ∧
    RoomsService.allUserPassed (RoomsGateway.passH c1state "s1").1 1 = true ∧
    (RoomsGateway.passH c1state "s1").2 = [Emit.room 1 "countdown" []] ∧
    ((RoomsGateway.passH c1state "s1").1.rooms 1).map Room.state =
      some RState.playing := by
  decide

/-- Claim C1 as amended: when a pass makes every member passed and a
countdown handle is running at that moment, the round ends immediately:
the countdown is cancelled, the room moves to over, and game_over and
room_game_over are broadcast without waiting for the deadline. Without a
running countdown the fast path does not fire. -/
theorem c1_all_passed_with_timer_ends_round
    (s : GState) (sid : String) (sd : SocketData) (n : String) (rid : RoomId)
    (t : Nat) (room : Room)
    (hs : s.sockets sid = some sd) (hu : sd.user = some n)
    (hr : sd.roomId = some rid)
    (hroom : s.rooms rid = some room) (ht : room.timer = some t)
    (hp : RoomsService.allUserPassed
      { s with sockets := fupd s.sockets sid (some { sd with passed := true }) }
      rid = true) :
    (RoomsGateway.passH s sid).2 =
      [Emit.room rid "game_over" [],
       Emit.room LOBBY_ID "room_game_over" [Nat.repr rid]] ∧
    ((RoomsGateway.passH s sid).1.rooms rid).map Room.state = some RState.over ∧
    ∀ q ∈ (RoomsGateway.passH s sid).1.pending, q.1 ≠ t := by
  obtain ⟨u, orid, pp⟩ := sd
  have hu2 : u = some n := hu
  have hr2 : orid = some rid := hr
  subst hu2
  subst hr2
  have hgt : RoomsService.getTimer s rid = some t := by
    simp [RoomsService.getTimer, hroom, ht]
  refine ⟨?_, ?_, ?_⟩
  · simp [RoomsGateway.passH, hs, hgt, hp]
  · simp [RoomsGateway.passH, hs, hgt, hp, RoomsService.gameOver,
      RoomsGateway.clearTimeoutT, hroom]
  · intro q hq
    simp only [RoomsGateway.passH, hs, hgt, hp, if_true, RoomsService.gameOver,
      RoomsGateway.clearTimeoutT, hroom] at hq
    simp only [List.mem_filter] at hq
    simpa [bne_iff_ne] using hq.2

/-- The prefix of trace2 through the first pass: both members in the
playing room, member A passed, the countdown handle 1 running. -/
def trace2a : List Act :=
  [Act.connect "s1" "A", Act.enterLobby "s1", Act.connect "s2" "B",
   Act.enterLobby "s2", Act.createRoom "s1" "r" 4, Act.enterRoom "s1" 1,
   Act.enterRoom "s2" 1, Act.ready "s1", Act.ready "s2", Act.pass "s1"]

/-- The room as it stands after trace2a. -/
def c1room : Room :=
  { roomName := "r", capacity := 4, state := RState.playing,
    users :=
      [{ socketId := "s1", userName := "A", ready := true, passed := false,
         items := [] },
       { socketId := "s2", userName := "B", ready := true, passed := false,
         items := [] }],
    timer := some 1, itemCreator := some 0 }

/-- Witness for the amended C1: member B is the last to pass while the
countdown handle 1 is running; the round ends at once. -/
theorem c1_witness :
    (RoomsGateway.passH (run init trace2a) "s2").2 =
      [Emit.room 1 "game_over" [],
       Emit.room LOBBY_ID "room_game_over" [Nat.repr 1]] ∧
    ((RoomsGateway.passH (run init trace2a) "s2").1.rooms 1).map Room.state =
      some RState.over ∧
    ∀ q ∈ (RoomsGateway.passH (run init trace2a) "s2").1.pending, q.1 ≠ 1 :=
  c1_all_passed_with_timer_ends_round (run init trace2a) "s2"
    { user := some "B", roomId := some 1, passed := false } "B" 1 1 c1room
    (by decide) rfl rfl (by decide) (by decide) (by decide)

/-! ### Claim C2 -/

/-- Claim C2 as amended: a cancelled countdown never mutates state, but
only because clearTimeout removes the pending callback in the
single-threaded timer model: a handle with no pending entry never fires.
The expiry callback itself is unguarded: there is no generation counter
anywhere, and when the callback does run it ends the round and emits the
round-end broadcasts even if the owning room no longer exists. -/
theorem c2_cancelled_never_fires_but_callback_unguarded :
    (∀ (s : GState) (t : Nat), (∀ p ∈ s.pending, p.1 ≠ t) →
      RoomsGateway.fireTimer s t = none) ∧
    (∀ (s : GState) (t : Nat) (rid : RoomId),
      s.pending.find? (fun p => p.1 == t) = some (t, rid) →
      s.rooms rid = none →
      RoomsGateway.fireTimer s t =
        some ({ s with pending := s.pending.filter (fun q => q.1 != t) },
          [Emit.room rid "game_over" [],
           Emit.room LOBBY_ID "room_game_over" [Nat.repr rid]])) := by
  constructor
  · intro s t h
    have : s.pending.find? (fun p => p.1 == t) = none := by
      rw [List.find?_eq_none]
      intro p hp
      simpa using h p hp
    simp [RoomsGateway.fireTimer, this]
  · intro s t rid hfind hnone
    simp [RoomsGateway.fireTimer, hfind, RoomsService.gameOver, hnone]

/-- A concrete state with a pending countdown for room 7, which does not
exist. -/
def c2state : GState := { init with pending := [(0, 7)] }

/-- Claim C2 counterexample: the expiry callback for the missing room 7 is
not a no-op — it still emits the round-end broadcasts, with no existence or
generation check anywhere in its body. -/
theorem c2_counterexample :
    c2state.rooms 7 = none ∧
    Option.map Prod.snd (RoomsGateway.fireTimer c2state 0) =
      some [Emit.room 7 "game_over" [],
            Emit.room LOBBY_ID "room_game_over" [Nat.repr 7]] := by
  decide

/-- Witness for the amended C2: a handle absent from the pending list never
fires, and the pending callback for the missing room 7 fires unguarded. -/
theorem c2_witness :
    RoomsGateway.fireTimer init 5 = none ∧
    RoomsGateway.fireTimer c2state 0 =
      some ({ c2state with pending := c2state.pending.filter (fun q => q.1 != 0) },
        [Emit.room 7 "game_over" [],
         Emit.room LOBBY_ID "room_game_over" [Nat.repr 7]]) :=
  ⟨c2_cancelled_never_fires_but_callback_unguarded.1 init 5 (by decide),
   c2_cancelled_never_fires_but_callback_unguarded.2 c2state 0 7 (by decide) (by decide)⟩

/-! ### Claim C3 -/

/-- Claim C3 counterexample: along trace2 the round-end path runs twice —
the countdown expiry ends the round, and the later pass of the last member
still sees the stale countdown handle and re-runs the fast path — so
game_over and room_game_over are each broadcast twice, and both the stale
countdown handle and the item-spawn handle survive in the room. -/
theorem c3_counterexample :
    (runE init trace2).2.count (Emit.room 1 "game_over" []) = 2 ∧
    (runE init trace2).2.count (Emit.room LOBBY_ID "room_game_over" [Nat.repr 1]) = 2 ∧
    ((runE init trace2).1.rooms 1).map Room.timer = some (some 1) ∧
    ((runE init trace2).1.rooms 1).map Room.itemCreator = some (some 0) := by
  decide

/-- Claim C3 as amended: the round-end path is not idempotent. The expiry
callback only removes its own pending entry and flips the room state to
over — the stored countdown handle and the item-spawn handle are left in
place — and a later pass that finds every member passed and the stale
handle re-runs the fast path, broadcasting game_over and room_game_over a
second time. -/
theorem c3_round_end_not_idempotent :
    (∀ (s : GState) (t : Nat) (rid : RoomId) (room : Room),
      s.pending.find? (fun p => p.1 == t) = some (t, rid) →
      s.rooms rid = some room →
      RoomsGateway.fireTimer s t =
        some ({ s with
                  rooms := fupd s.rooms rid (some { room with state := RState.over }),
                  pending := s.pending.filter (fun q => q.1 != t) },
          [Emit.room rid "game_over" [],
           Emit.room LOBBY_ID "room_game_over" [Nat.repr rid]])) ∧
    (∀ (s : GState) (sid : String) (sd : SocketData) (n : String) (rid : RoomId)
       (t : Nat) (room : Room),
      s.sockets sid = some sd → sd.user = some n → sd.roomId = some rid →
      s.rooms rid = some room → room.state = RState.over → room.timer = some t →
      RoomsService.allUserPassed
        { s with sockets := fupd s.sockets sid (some { sd with passed := true }) }
        rid = true →
      (RoomsGateway.passH s sid).2 =
        [Emit.room rid "game_over" [],
         Emit.room LOBBY_ID "room_game_over" [Nat.repr rid]]) := by
  constructor
  · intro s t rid room hfind hroom
    simp [RoomsGateway.fireTimer, hfind, RoomsService.gameOver, hroom]
  · intro s sid sd n rid t room hs hu hr hroom hover ht hp
    obtain ⟨u, orid, pp⟩ := sd
    have hu2 : u = some n := hu
    have hr2 : orid = some rid := hr
    subst hu2
    subst hr2
    have hgt : RoomsService.getTimer s rid = some t := by
      simp [RoomsService.getTimer, hroom, ht]
    simp [RoomsGateway.passH, hs, hgt, hp]

/-- A synthetic playing room with both timer handles set, used as the
expiry-path witness input. -/
def c3room : Room :=
  { roomName := "g", capacity := 2, state := RState.playing, users := [],
    timer := some 5, itemCreator := some 4 }

/-- A state holding c3room at id 9 with its countdown callback pending. -/
def c3state : GState :=
  { init with pending := [(5, 9)], rooms := fupd init.rooms 9 (some c3room) }

/-- Witness for the amended C3 at concrete inputs: the expiry leaves both
handles in the room record, and at the trace2 end state another pass by the
last member re-emits the round-end broadcasts. -/
theorem c3_witness :
    RoomsGateway.fireTimer c3state 5 =
      some ({ c3state with
                rooms := fupd c3state.rooms 9 (some { c3room with state := RState.over }),
                pending := c3state.pending.filter (fun q => q.1 != 5) },
        [Emit.room 9 "game_over" [],
         Emit.room LOBBY_ID "room_game_over" [Nat.repr 9]]) ∧
    (RoomsGateway.passH (runE init trace2).1 "s2").2 =
      [Emit.room 1 "game_over" [],
       Emit.room LOBBY_ID "room_game_over" [Nat.repr 1]] :=
  ⟨c3_round_end_not_idempotent.1 c3state 5 9 c3room (by decide) (by decide),
   c3_round_end_not_idempotent.2 (runE init trace2).1 "s2"
     { user := some "B", roomId := some 1, passed := true } "B" 1 1
     { roomName := "r", capacity := 4, state := RState.over,
       users :=
         [{ socketId := "s1", userName := "A", ready := true, passed := false,
            items := [] },
          { socketId := "s2", userName := "B", ready := true, passed := false,
            items := [] }],
       timer := some 1, itemCreator := some 0 }
     (by decide) rfl rfl (by decide) rfl rfl (by decide)⟩

/-! ### Claim C8 -/

/-- The state reached by trace4: member A alone in room 1, user B connected
and in the lobby. -/
def c8state : GState := run init trace4

/-- Claim C8 counterexample: kicking B, who is not a member of room 1,
returns NotAMember yet still emits the kick notice to B, user_exit_room to
the room and change_user_count to the lobby. -/
theorem c8_counterexample :
    (RoomsGateway.kickH c8state "s1" "B").2.2 = some "NotAMember" ∧
    (RoomsGateway.kickH c8state "s1" "B").2.1 =
      [Emit.sock "s2" "kick" [Nat.repr 1, "A"],
       Emit.room 1 "user_exit_room" ["B"],
       Emit.room LOBBY_ID "change_user_count" [Nat.repr 1, Nat.repr 1]] := by
  decide

/-- Claim C8 as amended: a kick whose target is not a member of the room
returns NotAMember and leaves the whole state (in particular the room
membership) unchanged, but the gateway still emits the kick notice to the
target socket, user_exit_room to the room and change_user_count to the
lobby, because it broadcasts regardless of the service status. -/
theorem c8_kick_nonmember_status_but_broadcasts
    (s : GState) (sid : String) (sd : SocketData) (n : String) (rid : RoomId)
    (room : Room) (target : String) (tsid : String)
    (hs : s.sockets sid = some sd) (hu : sd.user = some n)
    (hr : sd.roomId = some rid) (hroom : s.rooms rid = some room)
    (hnm : room.users.any (fun ru => ru.userName == target) = false)
    (hts : s.socketIds target = some tsid) :
    RoomsGateway.kickH s sid target =
      (s, [Emit.sock tsid "kick" [Nat.repr rid, n],
           Emit.room rid "user_exit_room" [target],
           Emit.room LOBBY_ID "change_user_count"
             [Nat.repr rid, Nat.repr (RoomsService.roomUserCount s rid)]],
       some "NotAMember") := by
  obtain ⟨u, orid, pp⟩ := sd
  have hu2 : u = some n := hu
  have hr2 : orid = some rid := hr
  subst hu2
  subst hr2
  simp [RoomsGateway.kickH, hs, RoomsService.kick, hroom, hnm,
    RoomsService.getSocketId, hts]

/-- Witness for the amended C8 at the trace4 state. -/
theorem c8_witness :
    RoomsGateway.kickH c8state "s1" "B" =
      (c8state, [Emit.sock "s2" "kick" [Nat.repr 1, "A"],
                 Emit.room 1 "user_exit_room" ["B"],
                 Emit.room LOBBY_ID "change_user_count"
                   [Nat.repr 1, Nat.repr (RoomsService.roomUserCount c8state 1)]],
       some "NotAMember") :=
  c8_kick_nonmember_status_but_broadcasts c8state "s1"
    { user := some "A", roomId := some 1, passed := false } "A" 1
    { roomName := "r", capacity := 4, state := RState.waiting,
      users := [{ socketId := "s1", userName := "A", ready := false,
                  passed := false, items := [] }],
      timer := none, itemCreator := none }
    "B" "s2" (by decide) rfl rfl (by decide) (by decide) (by decide)

/-! ### Claim C9 -/

/-- True iff every emit in the list is addressed to the given socket. -/
def allToSocket (sid : String) (es : List Emit) : Bool :=
  es.all (fun e =>
    match e with
    | Emit.sock sid2 _ _ => sid2 == sid
    | _ => false)

/-- The state reached by trace1 without the ready: member A alone in room 1
with an empty inventory. -/
def c9state : GState := run init
  [Act.connect "s1" "A", Act.enterLobby "s1", Act.createRoom "s1" "r" 4,
   Act.enterRoom "s1" 1]

/-- Claim C9 counterexample: an ItemNotOwned failure is not delivered to
the acting connection at all — it is broadcast, failure status included, to
the other members of the room via the item event. -/
theorem c9_counterexample :
    (RoomsService.useItem c9state 1 "A" "itm").2 = "ItemNotOwned" ∧
    (RoomsGateway.useItemH c9state "s1" "itm").2 =
      [Emit.roomExceptSender 1 "item" ["ItemNotOwned", "A", "itm"]] ∧
    allToSocket "s1" (RoomsGateway.useItemH c9state "s1" "itm").2 = false := by
  decide

/-- Claim C9 as amended: a failing useItem leaves the whole state unchanged
(no room, this one or any other, is altered), and the failure status is
broadcast in the item event to the other members of the room, the acting
connection excluded; the handler returns nothing to the actor. -/
theorem c9_item_failure_broadcast_to_others
    (s : GState) (sid : String) (sd : SocketData) (n : String) (rid : RoomId)
    (item : String) (room : Room) (ru : RoomUser)
    (hs : s.sockets sid = some sd) (hu : sd.user = some n)
    (hr : sd.roomId = some rid) (hroom : s.rooms rid = some room)
    (hru : room.users.find? (fun x => x.userName == n) = some ru)
    (hit : item ∉ ru.items) :
    RoomsGateway.useItemH s sid item =
      (s, [Emit.roomExceptSender rid "item" ["ItemNotOwned", n, item]]) := by
  obtain ⟨u, orid, pp⟩ := sd
  have hu2 : u = some n := hu
  have hr2 : orid = some rid := hr
  subst hu2
  subst hr2
  simp [RoomsGateway.useItemH, hs, RoomsService.useItem, hroom, hru, hit]

/-- Witness for the amended C9 at the concrete state. -/
theorem c9_witness :
    RoomsGateway.useItemH c9state "s1" "itm" =
      (c9state, [Emit.roomExceptSender 1 "item" ["ItemNotOwned", "A", "itm"]]) :=
  c9_item_failure_broadcast_to_others c9state "s1"
    { user := some "A", roomId := some 1, passed := false } "A" 1 "itm"
    { roomName := "r", capacity := 4, state := RState.waiting,
      users := [{ socketId := "s1", userName := "A", ready := false,
                  passed := false, items := [] }],
      timer := none, itemCreator := none }
    { socketId := "s1", userName := "A", ready := false, passed := false,
      items := [] }
    (by decide) rfl rfl (by decide) (by decide) (by decide)

/-! ### Claim C4 -/

/-- The exit operation reports false exactly when the room is absent from
the directory afterwards (deleted by this exit, or never there). -/
theorem exitRoom_snd_false_iff (s : GState) (rid : RoomId) (n : String) :
    (RoomsService.exitRoom s (some rid) n).2 = false ↔
    (RoomsService.exitRoom s (some rid) n).1.rooms rid = none := by
  unfold RoomsService.exitRoom
  cases h : s.rooms rid with
  | none => simp [h]
  | some room =>
    simp only [h]
    split
    · simp
    · simp

/-- Claim C4 counterexample: disconnecting a member of a two-member room
produces different broadcasts than an explicit exit_room by the same user:
the disconnect path omits the change_user_count broadcast to the lobby. -/
theorem c4_counterexample :
    (RoomsGateway.handleDisconnect (run init trace3) "s1").2 =
      [Emit.room 1 "user_exit_room" ["A"]] ∧
    (RoomsGateway.exitRoomH (run init trace3) "s1").2.1 =
      [Emit.room 1 "user_exit_room" ["A"],
       Emit.room LOBBY_ID "change_user_count" [Nat.repr 1, Nat.repr 1]] ∧
    (RoomsGateway.handleDisconnect (run init trace3) "s1").2 ≠
      (RoomsGateway.exitRoomH (run init trace3) "s1").2.1 := by
  decide

/-- Claim C4 as amended: for a user occupying a non-lobby room, a
disconnect has the same state effect as an explicit exit_room followed by
the registry removal, and when the exit empties the room both paths notify
the lobby with the same delete_room broadcast; but when the room survives,
the disconnect emits only user_exit_room and omits the change_user_count
broadcast that exit_room sends to the lobby. -/
theorem c4_disconnect_vs_exit
    (s : GState) (sid : String) (sd : SocketData) (n : String) (rid : RoomId)
    (hs : s.sockets sid = some sd) (hu : sd.user = some n)
    (hr : sd.roomId = some rid) (hl : rid ≠ LOBBY_ID) :
    (RoomsGateway.handleDisconnect s sid).1 =
      RoomsService.deleteSocketId (RoomsGateway.exitRoomH s sid).1 n ∧
    ((RoomsService.exitRoom s (some rid) n).2 = true →
      (RoomsGateway.handleDisconnect s sid).2 =
        [Emit.room rid "user_exit_room" [n]] ∧
      (RoomsGateway.exitRoomH s sid).2.1 =
        [Emit.room rid "user_exit_room" [n],
         Emit.room LOBBY_ID "change_user_count"
           [Nat.repr rid,
            Nat.repr (RoomsService.roomUserCount (RoomsGateway.exitRoomH s sid).1 rid)]]) ∧
    ((RoomsService.exitRoom s (some rid) n).2 = false →
      (RoomsGateway.handleDisconnect s sid).2 =
        [Emit.room LOBBY_ID "delete_room" [Nat.repr rid]] ∧
      (RoomsGateway.exitRoomH s sid).2.1 =
        [Emit.room LOBBY_ID "delete_room" [Nat.repr rid]]) := by
  obtain ⟨u, orid, pp⟩ := sd
  have hu2 : u = some n := hu
  have hr2 : orid = some rid := hr
  subst hu2
  subst hr2
  refine ⟨?_, ?_, ?_⟩
  · have e1 : (RoomsGateway.exitRoomH s sid).1 =
        (RoomsService.exitRoom s (some rid) n).1 := by
      simp only [RoomsGateway.exitRoomH, hs]
      split <;> rfl
    have e2 : (RoomsGateway.handleDisconnect s sid).1 =
        RoomsService.deleteSocketId (RoomsService.exitRoom s (some rid) n).1 n := by
      simp only [RoomsGateway.handleDisconnect, hs]
      rw [if_neg hl]
      split <;> rfl
    rw [e1, e2]
  · intro hb
    constructor
    · obtain ⟨room2, hroom2⟩ :
          ∃ r2, (RoomsService.exitRoom s (some rid) n).1.rooms rid = some r2 := by
        cases h : (RoomsService.exitRoom s (some rid) n).1.rooms rid with
        | none =>
          rw [(exitRoom_snd_false_iff s rid n).mpr h] at hb
          cases hb
        | some r2 => exact ⟨r2, rfl⟩
      simp [RoomsGateway.handleDisconnect, hs, hl, RoomsService.roomInfo,
        RoomsService.deleteSocketId, hroom2]
    · simp [RoomsGateway.exitRoomH, hs, hb]
  · intro hb
    have hnone := (exitRoom_snd_false_iff s rid n).mp hb
    constructor
    · simp [RoomsGateway.handleDisconnect, hs, hl, RoomsService.roomInfo,
        RoomsService.deleteSocketId, hnone]
    · simp [RoomsGateway.exitRoomH, hs, hb]

/-- Witness for the amended C4: at the trace3 state the room survives the
exit of A (B remains), and at the trace4 state A is the last member, so the
exit deletes the room and both paths emit delete_room. -/
theorem c4_witness :
    ((RoomsGateway.handleDisconnect (run init trace3) "s1").1 =
      RoomsService.deleteSocketId (RoomsGateway.exitRoomH (run init trace3) "s1").1 "A" ∧
     (RoomsGateway.handleDisconnect (run init trace3) "s1").2 =
      [Emit.room 1 "user_exit_room" ["A"]]) ∧
    ((RoomsGateway.handleDisconnect (run init trace4) "s1").2 =
      [Emit.room LOBBY_ID "delete_room" [Nat.repr 1]] ∧
     (RoomsGateway.exitRoomH (run init trace4) "s1").2.1 =
      [Emit.room LOBBY_ID "delete_room" [Nat.repr 1]]) :=
  ⟨⟨(c4_disconnect_vs_exit (run init trace3) "s1"
      { user := some "A", roomId := some 1, passed := false } "A" 1
      (by decide) rfl rfl (by decide)).1,
    ((c4_disconnect_vs_exit (run init trace3) "s1"
      { user := some "A", roomId := some 1, passed := false } "A" 1
      (by decide) rfl rfl (by decide)).2.1 (by decide)).1⟩,
   (c4_disconnect_vs_exit (run init trace4) "s1"
      { user := some "A", roomId := some 1, passed := false } "A" 1
      (by decide) rfl rfl (by decide)).2.2 (by decide)⟩

/-! ### Claim C5: room-state preservation machinery -/

/-- Every room present at rid after a step is over, waiting, or has the
state the room at rid had before the step. The three cases cover every
state-machine effect of every handler except the round start. -/
def statePreserved (s s2 : GState) (rid : RoomId) : Prop :=
  ∀ room2, s2.rooms rid = some room2 →
    room2.state = RState.over ∨ room2.state = RState.waiting ∨
    ∃ room, s.rooms rid = some room ∧ room2.state = room.state

theorem sp_refl (s : GState) (rid : RoomId) : statePreserved s s rid :=
  fun room2 h2 => Or.inr (Or.inr ⟨room2, h2, rfl⟩)

theorem sp_trans {s s1 s2 : GState} {rid : RoomId}
    (h1 : statePreserved s s1 rid) (h2 : statePreserved s1 s2 rid) :
    statePreserved s s2 rid := by
  intro room2 hr2
  rcases h2 room2 hr2 with h | h | ⟨room1, hr1, he⟩
  · exact Or.inl h
  · exact Or.inr (Or.inl h)
  · rcases h1 room1 hr1 with h | h | ⟨room, hr, he2⟩
    · exact Or.inl (he.trans h)
    · exact Or.inr (Or.inl (he.trans h))
    · exact Or.inr (Or.inr ⟨room, hr, he.trans he2⟩)

theorem sp_rooms_eq {s s2 : GState} (h : s2.rooms = s.rooms) (rid : RoomId) :
    statePreserved s s2 rid := by
  intro room2 h2
  rw [h] at h2
  exact Or.inr (Or.inr ⟨room2, h2, rfl⟩)

theorem sp_fupd {s s2 : GState} {rid2 : RoomId} {oroom2 : Option Room}
    (hrooms : s2.rooms = fupd s.rooms rid2 oroom2)
    (h : ∀ room2, oroom2 = some room2 → room2.state = RState.over ∨
      room2.state = RState.waiting ∨
      ∃ room, s.rooms rid2 = some room ∧ room2.state = room.state)
    (rid : RoomId) : statePreserved s s2 rid := by
  intro room2 h2
  rw [hrooms] at h2
  by_cases he : rid = rid2
  · subst he
    rw [fupd_self] at h2
    exact h room2 h2
  · rw [fupd_ne _ _ _ he] at h2
    exact Or.inr (Or.inr ⟨room2, h2, rfl⟩)

/-- Case analysis for membership of a pointwise-updated directory. -/
theorem fupd_cases {f : RoomId → Option Room} {rid2 rid : RoomId}
    {o : Option Room} {room2 : Room} (h2 : fupd f rid2 o rid = some room2) :
    (rid = rid2 ∧ o = some room2) ∨ (rid ≠ rid2 ∧ f rid = some room2) := by
  by_cases he : rid = rid2
  · subst he
    rw [fupd_self] at h2
    exact Or.inl ⟨rfl, h2⟩
  · rw [fupd_ne _ _ _ he] at h2
    exact Or.inr ⟨he, h2⟩

theorem sp_exitRoom (s : GState) (orid : Option RoomId) (n : String) (rid : RoomId) :
    statePreserved s (RoomsService.exitRoom s orid n).1 rid := by
  intro room2 h2
  unfold RoomsService.exitRoom at h2
  cases orid with
  | none => exact Or.inr (Or.inr ⟨room2, h2, rfl⟩)
  | some rid2 =>
    cases h : s.rooms rid2 with
    | none =>
      simp only [h] at h2
      exact Or.inr (Or.inr ⟨room2, h2, rfl⟩)
    | some room =>
      simp only [h] at h2
      split at h2
      · rcases fupd_cases h2 with ⟨he, ho⟩ | ⟨he, ho⟩
        · cases ho
        · exact Or.inr (Or.inr ⟨room2, ho, rfl⟩)
      · rcases fupd_cases h2 with ⟨he, ho⟩ | ⟨he, ho⟩
        · injection ho with ho
          subst he
          exact Or.inr (Or.inr ⟨room, h, by rw [← ho]⟩)
        · exact Or.inr (Or.inr ⟨room2, ho, rfl⟩)

theorem sp_enterRoom_ok {s s2 : GState} {rid0 : RoomId} {prev : Option RoomId}
    {ru : RoomUser} (hok : RoomsService.enterRoom s rid0 prev ru = Except.ok s2)
    (rid : RoomId) : statePreserved s s2 rid := by
  unfold RoomsService.enterRoom at hok
  cases h : s.rooms rid0 with
  | none =>
    simp only [h] at hok
    cases hok
  | some room =>
    simp only [h] at hok
    split at hok
    · cases hok
    · split at hok
      · injection hok with hok
        subst hok
        intro room2 h2
        rcases fupd_cases h2 with ⟨he, ho⟩ | ⟨he, ho⟩
        · injection ho with ho
          subst he
          exact Or.inr (Or.inr ⟨room, h, by rw [← ho]⟩)
        · exact Or.inr (Or.inr ⟨room2, ho, rfl⟩)
      · cases h1 : (RoomsService.exitRoom s prev ru.userName).1.rooms rid0 with
        | none =>
          simp only [h1] at hok
          cases hok
        | some room1 =>
          simp only [h1] at hok
          injection hok with hok
          subst hok
          refine sp_trans (sp_exitRoom s prev ru.userName rid) ?_
          intro room2 h2
          rcases fupd_cases h2 with ⟨he, ho⟩ | ⟨he, ho⟩
          · injection ho with ho
            subst he
            exact Or.inr (Or.inr ⟨room1, h1, by rw [← ho]⟩)
          · exact Or.inr (Or.inr ⟨room2, ho, rfl⟩)

theorem sp_gameOver (s : GState) (rid2 rid : RoomId) :
    statePreserved s (RoomsService.gameOver s rid2) rid := by
  intro room2 h2
  unfold RoomsService.gameOver at h2
  cases h : s.rooms rid2 with
  | none =>
    simp only [h] at h2
    exact Or.inr (Or.inr ⟨room2, h2, rfl⟩)
  | some room =>
    simp only [h] at h2
    rcases fupd_cases h2 with ⟨he, ho⟩ | ⟨he, ho⟩
    · injection ho with ho
      exact Or.inl (by rw [← ho])
    · exact Or.inr (Or.inr ⟨room2, ho, rfl⟩)

theorem sp_setTimer (s : GState) (rid2 : RoomId) (t : Nat) (rid : RoomId) :
    statePreserved s (RoomsService.setTimer s rid2 t) rid := by
  intro room2 h2
  unfold RoomsService.setTimer at h2
  cases h : s.rooms rid2 with
  | none =>
    simp only [h] at h2
    exact Or.inr (Or.inr ⟨room2, h2, rfl⟩)
  | some room =>
    simp only [h] at h2
    rcases fupd_cases h2 with ⟨he, ho⟩ | ⟨he, ho⟩
    · injection ho with ho
      subst he
      exact Or.inr (Or.inr ⟨room, h, by rw [← ho]⟩)
    · exact Or.inr (Or.inr ⟨room2, ho, rfl⟩)

theorem sp_kickS (s : GState) (rid2 : RoomId) (target : String) (rid : RoomId) :
    statePreserved s (RoomsService.kick s rid2 target).1 rid := by
  intro room2 h2
  unfold RoomsService.kick at h2
  cases h : s.rooms rid2 with
  | none =>
    simp only [h] at h2
    exact Or.inr (Or.inr ⟨room2, h2, rfl⟩)
  | some room =>
    simp only [h] at h2
    split at h2
    · rcases fupd_cases h2 with ⟨he, ho⟩ | ⟨he, ho⟩
      · injection ho with ho
        subst he
        exact Or.inr (Or.inr ⟨room, h, by rw [← ho]⟩)
      · exact Or.inr (Or.inr ⟨room2, ho, rfl⟩)
    · exact Or.inr (Or.inr ⟨room2, h2, rfl⟩)

theorem sp_useItemS (s : GState) (rid2 : RoomId) (n item : String) (rid : RoomId) :
    statePreserved s (RoomsService.useItem s rid2 n item).1 rid := by
  intro room2 h2
  unfold RoomsService.useItem at h2
  cases h : s.rooms rid2 with
  | none =>
    simp only [h] at h2
    exact Or.inr (Or.inr ⟨room2, h2, rfl⟩)
  | some room =>
    simp only [h] at h2
    cases hf : room.users.find? (fun x => x.userName == n) with
    | none =>
      simp only [hf] at h2
      exact Or.inr (Or.inr ⟨room2, h2, rfl⟩)
    | some ru =>
      simp only [hf] at h2
      split at h2
      · rcases fupd_cases h2 with ⟨he, ho⟩ | ⟨he, ho⟩
        · injection ho with ho
          subst he
          exact Or.inr (Or.inr ⟨room, h, by rw [← ho]⟩)
        · exact Or.inr (Or.inr ⟨room2, ho, rfl⟩)
      · exact Or.inr (Or.inr ⟨room2, h2, rfl⟩)

theorem sp_createRoomS (s : GState) (name : String) (cap : Nat) (rid : RoomId) :
    statePreserved s (RoomsService.createRoom s name cap).1 rid := by
  intro room2 h2
  unfold RoomsService.createRoom at h2
  rcases fupd_cases h2 with ⟨he, ho⟩ | ⟨he, ho⟩
  · injection ho with ho
    exact Or.inr (Or.inl (by rw [← ho]))
  · exact Or.inr (Or.inr ⟨room2, ho, rfl⟩)

theorem sp_left_eq {s s1 s2 : GState} {rid : RoomId} (h : s1.rooms = s.rooms)
    (hp : statePreserved s1 s2 rid) : statePreserved s s2 rid := by
  intro room2 h2
  rcases hp room2 h2 with h2a | h2a | ⟨room, hr, he⟩
  · exact Or.inl h2a
  · exact Or.inr (Or.inl h2a)
  · rw [h] at hr
    exact Or.inr (Or.inr ⟨room, hr, he⟩)

theorem handleConnection_rooms (s : GState) (sid : String) (auth : Option String) :
    (RoomsGateway.handleConnection s sid auth).1.rooms = s.rooms := by
  unfold RoomsGateway.handleConnection
  cases auth with
  | none => rfl
  | some n =>
    by_cases hc : RoomsService.isConnectedUser s n = true
    · simp [hc]
    · simp [hc]

theorem sp_handleConnection (s : GState) (sid : String) (auth : Option String)
    (rid : RoomId) :
    statePreserved s (RoomsGateway.handleConnection s sid auth).1 rid :=
  sp_rooms_eq (handleConnection_rooms s sid auth) rid

theorem sp_handleDisconnect (s : GState) (sid : String) (rid : RoomId) :
    statePreserved s (RoomsGateway.handleDisconnect s sid).1 rid := by
  intro room2 h2
  unfold RoomsGateway.handleDisconnect at h2
  cases hs : s.sockets sid with
  | none =>
    simp only [hs] at h2
    exact Or.inr (Or.inr ⟨room2, h2, rfl⟩)
  | some sd =>
    simp only [hs] at h2
    cases hu : sd.user with
    | none =>
      simp only [hu] at h2
      exact Or.inr (Or.inr ⟨room2, h2, rfl⟩)
    | some n =>
      simp only [hu] at h2
      cases hr : sd.roomId with
      | none =>
        simp only [hr] at h2
        exact sp_exitRoom s sd.roomId n rid room2 (by rw [hr]; exact h2)
      | some rid2 =>
        simp only [hr] at h2
        split at h2
        · exact sp_exitRoom s (some rid2) n rid room2 h2
        · split at h2
          · exact sp_exitRoom s (some rid2) n rid room2 h2
          · exact sp_exitRoom s (some rid2) n rid room2 h2

theorem sp_enterLobbyH (s : GState) (sid : String) (rid : RoomId) :
    statePreserved s (RoomsGateway.enterLobbyH s sid).1 rid := by
  intro room2 h2
  unfold RoomsGateway.enterLobbyH at h2
  cases hs : s.sockets sid with
  | none =>
    simp only [hs] at h2
    exact Or.inr (Or.inr ⟨room2, h2, rfl⟩)
  | some sd =>
    simp only [hs] at h2
    cases hu : sd.user with
    | none =>
      simp only [hu] at h2
      exact Or.inr (Or.inr ⟨room2, h2, rfl⟩)
    | some n =>
      simp only [hu] at h2
      cases he : RoomsService.enterRoom s LOBBY_ID sd.roomId
          { socketId := sid, userName := n, ready := false, passed := false,
            items := [] } with
      | error e =>
        simp only [he] at h2
        exact Or.inr (Or.inr ⟨room2, h2, rfl⟩)
      | ok s1 =>
        simp only [he] at h2
        exact sp_enterRoom_ok he rid room2 h2

theorem sp_enterRoomH (s : GState) (sid : String) (rid0 rid : RoomId) :
    statePreserved s (RoomsGateway.enterRoomH s sid rid0).1 rid := by
  intro room2 h2
  unfold RoomsGateway.enterRoomH at h2
  cases hs : s.sockets sid with
  | none =>
    simp only [hs] at h2
    exact Or.inr (Or.inr ⟨room2, h2, rfl⟩)
  | some sd =>
    simp only [hs] at h2
    cases hu : sd.user with
    | none =>
      simp only [hu] at h2
      exact Or.inr (Or.inr ⟨room2, h2, rfl⟩)
    | some n =>
      simp only [hu] at h2
      cases he : RoomsService.enterRoom s rid0 sd.roomId
          { socketId := sid, userName := n, ready := false, passed := false,
            items := [] } with
      | error e =>
        cases e <;> simp only [he] at h2 <;>
          exact Or.inr (Or.inr ⟨room2, h2, rfl⟩)
      | ok s1 =>
        simp only [he] at h2
        exact sp_enterRoom_ok he rid room2 h2

theorem sp_exitLobbyH (s : GState) (sid : String) (rid : RoomId) :
    statePreserved s (RoomsGateway.exitLobbyH s sid).1 rid := by
  intro room2 h2
  unfold RoomsGateway.exitLobbyH at h2
  cases hs : s.sockets sid with
  | none =>
    simp only [hs] at h2
    exact Or.inr (Or.inr ⟨room2, h2, rfl⟩)
  | some sd =>
    simp only [hs] at h2
    cases hu : sd.user with
    | none =>
      simp only [hu] at h2
      exact Or.inr (Or.inr ⟨room2, h2, rfl⟩)
    | some n =>
      simp only [hu] at h2
      exact sp_exitRoom s (some LOBBY_ID) n rid room2 h2

theorem sp_exitRoomH (s : GState) (sid : String) (rid : RoomId) :
    statePreserved s (RoomsGateway.exitRoomH s sid).1 rid := by
  intro room2 h2
  unfold RoomsGateway.exitRoomH at h2
  cases hs : s.sockets sid with
  | none =>
    simp only [hs] at h2
    exact Or.inr (Or.inr ⟨room2, h2, rfl⟩)
  | some sd =>
    simp only [hs] at h2
    cases hu : sd.user with
    | none =>
      simp only [hu] at h2
      exact Or.inr (Or.inr ⟨room2, h2, rfl⟩)
    | some n =>
      simp only [hu] at h2
      cases hr : sd.roomId with
      | none =>
        simp only [hr] at h2
        exact Or.inr (Or.inr ⟨room2, h2, rfl⟩)
      | some rid2 =>
        simp only [hr] at h2
        split at h2
        · exact sp_exitRoom s (some rid2) n rid room2 h2
        · exact sp_exitRoom s (some rid2) n rid room2 h2

theorem sp_createRoomH (s : GState) (sid name : String) (cap : Nat) (rid : RoomId) :
    statePreserved s (RoomsGateway.createRoomH s sid name cap).1 rid := by
  intro room2 h2
  unfold RoomsGateway.createRoomH at h2
  cases hs : s.sockets sid with
  | none =>
    simp only [hs] at h2
    exact Or.inr (Or.inr ⟨room2, h2, rfl⟩)
  | some sd =>
    simp only [hs] at h2
    cases hu : sd.user with
    | none =>
      simp only [hu] at h2
      exact Or.inr (Or.inr ⟨room2, h2, rfl⟩)
    | some n =>
      simp only [hu] at h2
      exact sp_createRoomS s name cap rid room2 h2

theorem sp_kickH (s : GState) (sid target : String) (rid : RoomId) :
    statePreserved s (RoomsGateway.kickH s sid target).1 rid := by
  intro room2 h2
  unfold RoomsGateway.kickH at h2
  cases hs : s.sockets sid with
  | none =>
    simp only [hs] at h2
    exact Or.inr (Or.inr ⟨room2, h2, rfl⟩)
  | some sd =>
    simp only [hs] at h2
    cases hu : sd.user with
    | none =>
      simp only [hu] at h2
      exact Or.inr (Or.inr ⟨room2, h2, rfl⟩)
    | some n =>
      simp only [hu] at h2
      cases hr : sd.roomId with
      | none =>
        simp only [hr] at h2
        exact Or.inr (Or.inr ⟨room2, h2, rfl⟩)
      | some rid2 =>
        simp only [hr] at h2
        split at h2
        · exact sp_kickS s rid2 target rid room2 h2
        · exact sp_kickS s rid2 target rid room2 h2

theorem sp_useItemH (s : GState) (sid item : String) (rid : RoomId) :
    statePreserved s (RoomsGateway.useItemH s sid item).1 rid := by
  intro room2 h2
  unfold RoomsGateway.useItemH at h2
  cases hs : s.sockets sid with
  | none =>
    simp only [hs] at h2
    exact Or.inr (Or.inr ⟨room2, h2, rfl⟩)
  | some sd =>
    simp only [hs] at h2
    cases hu : sd.user with
    | none =>
      simp only [hu] at h2
      exact Or.inr (Or.inr ⟨room2, h2, rfl⟩)
    | some n =>
      simp only [hu] at h2
      cases hr : sd.roomId with
      | none =>
        simp only [hr] at h2
        exact Or.inr (Or.inr ⟨room2, h2, rfl⟩)
      | some rid2 =>
        simp only [hr] at h2
        exact sp_useItemS s rid2 n item rid room2 h2

theorem sp_passH (s : GState) (sid : String) (rid : RoomId) :
    statePreserved s (RoomsGateway.passH s sid).1 rid := by
  intro room2 h2
  unfold RoomsGateway.passH at h2
  cases hs : s.sockets sid with
  | none =>
    simp only [hs] at h2
    exact Or.inr (Or.inr ⟨room2, h2, rfl⟩)
  | some sd =>
    simp only [hs] at h2
    cases hu : sd.user with
    | none =>
      simp only [hu] at h2
      exact Or.inr (Or.inr ⟨room2, h2, rfl⟩)
    | some n =>
      simp only [hu] at h2
      cases hr : sd.roomId with
      | none =>
        simp only [hr] at h2
        exact Or.inr (Or.inr ⟨room2, h2, rfl⟩)
      | some rid2 =>
        simp only [hr] at h2
        cases hgt : RoomsService.getTimer s rid2 with
        | some t =>
          simp only [hgt] at h2
          split at h2
          · rcases sp_gameOver _ rid2 rid room2 h2 with h2a | h2a | ⟨room, hr2, he⟩
            · exact Or.inl h2a
            · exact Or.inr (Or.inl h2a)
            · exact Or.inr (Or.inr ⟨room, hr2, he⟩)
          · exact Or.inr (Or.inr ⟨room2, h2, rfl⟩)
        | none =>
          simp only [hgt] at h2
          rcases sp_setTimer _ rid2 _ rid room2 h2 with h2a | h2a | ⟨room, hr2, he⟩
          · exact Or.inl h2a
          · exact Or.inr (Or.inl h2a)
          · exact Or.inr (Or.inr ⟨room, hr2, he⟩)

theorem sp_fireTimer {s : GState} {t : Nat} {r : GState × List Emit}
    (hft : RoomsGateway.fireTimer s t = some r) (rid : RoomId) :
    statePreserved s r.1 rid := by
  unfold RoomsGateway.fireTimer at hft
  cases hf : s.pending.find? (fun p => p.1 == t) with
  | none =>
    simp only [hf] at hft
    cases hft
  | some p =>
    simp only [hf] at hft
    injection hft with hft
    subst hft
    intro room2 h2
    rcases sp_gameOver _ p.2 rid room2 h2 with h2a | h2a | ⟨room, hr2, he⟩
    · exact Or.inl h2a
    · exact Or.inr (Or.inl h2a)
    · exact Or.inr (Or.inr ⟨room, hr2, he⟩)

/-- Every action other than a ready toggle keeps every room in a state that
is over, waiting, or unchanged: only the ready handler can start a round. -/
theorem sp_step_nonready (s : GState) (a : Act)
    (h : ∀ sid2, a ≠ Act.ready sid2) (rid : RoomId) :
    statePreserved s (step s a).1 rid := by
  cases a with
  | connect sid n =>
    by_cases hc : s.sockets sid = none
    · simp only [step, if_pos hc]
      exact sp_handleConnection s sid (some n) rid
    · simp only [step, if_neg hc]
      exact sp_refl s rid
  | disconnect sid =>
    intro room2 h2
    exact sp_handleDisconnect s sid rid room2 h2
  | enterLobby sid => exact sp_enterLobbyH s sid rid
  | exitLobby sid => exact sp_exitLobbyH s sid rid
  | createRoom sid name cap => exact sp_createRoomH s sid name cap rid
  | enterRoom sid rid0 => exact sp_enterRoomH s sid rid0 rid
  | exitRoom sid => exact sp_exitRoomH s sid rid
  | ready sid => exact absurd rfl (h sid)
  | kick sid target => exact sp_kickH s sid target rid
  | useItem sid item => exact sp_useItemH s sid item rid
  | pass sid => exact sp_passH s sid rid
  | fire t =>
    intro room2 h2
    simp only [step] at h2
    cases hft : RoomsGateway.fireTimer s t with
    | none =>
      simp only [hft] at h2
      exact Or.inr (Or.inr ⟨room2, h2, rfl⟩)
    | some r =>
      simp only [hft] at h2
      exact sp_fireTimer hft rid room2 h2

/-- Toggling readiness does not change the room lifecycle state. -/
theorem switchReady_state (s : GState) (rid : RoomId) (n : String) (room : Room)
    (hroom : s.rooms rid = some room) :
    ((RoomsService.switchReady s rid n).1.rooms rid).map Room.state =
      some room.state := by
  unfold RoomsService.switchReady
  simp [hroom, fupd]

/-- Starting the round sets the room state to playing. -/
theorem startH_state (s0 : GState) (rid : RoomId) (room0 : Room)
    (h : s0.rooms rid = some room0) :
    ((RoomsGateway.startH s0 rid).1.rooms rid).map Room.state =
      some RState.playing := by
  unfold RoomsGateway.startH RoomsService.changeRoomState RoomsService.setItemCreator
  simp [h, fupd]

/-- Claim C5 counterexample: a waiting room with a single member (fewer
than two) transitions to playing on that member's ready toggle, so the
membership-at-least-two requirement of the claim does not hold. -/
theorem c5_counterexample :
    ((run init (trace1.take 4)).rooms 1).map Room.state = some RState.waiting ∧
    RoomsService.roomUserCount (run init (trace1.take 4)) 1 = 1 ∧
    ((run init trace1).rooms 1).map Room.state = some RState.playing ∧
    RoomsService.roomUserCount (run init trace1) 1 = 1 := by
  decide

/-- Claim C5 as amended: a waiting room transitions to playing exactly when
every member is ready at the moment of the last ready toggle — no minimum
membership is enforced, so a single-member room starts — and no action
other than a ready toggle can take a waiting room to playing. -/
theorem c5_start_iff_all_ready
    (s : GState) (sid : String) (sd : SocketData) (n : String) (rid : RoomId)
    (room : Room)
    (hs : s.sockets sid = some sd) (hu : sd.user = some n)
    (hr : sd.roomId = some rid)
    (hroom : s.rooms rid = some room) (hw : room.state = RState.waiting) :
    (∀ room2, (RoomsGateway.readyH s sid).1.rooms rid = some room2 →
      (room2.state = RState.playing ↔
        RoomsService.allUserReady (RoomsService.switchReady s rid n).1 rid = true)) ∧
    (∀ a : Act, (∀ sid2, a ≠ Act.ready sid2) →
      ∀ room2, (step s a).1.rooms rid = some room2 →
        room2.state ≠ RState.playing) := by
  obtain ⟨u, orid, pp⟩ := sd
  have hu2 : u = some n := hu
  have hr2 : orid = some rid := hr
  subst hu2
  subst hr2
  constructor
  · intro room2 h2
    by_cases hb : RoomsService.allUserReady (RoomsService.switchReady s rid n).1 rid = true
    · simp only [RoomsGateway.readyH, hs, hb, if_true] at h2
      obtain ⟨roomS, hS, hSst⟩ :=
        Option.map_eq_some'.mp (switchReady_state s rid n room hroom)
      have hst := startH_state (RoomsService.switchReady s rid n).1 rid roomS hS
      rw [h2] at hst
      simp only [Option.map_some'] at hst
      injection hst with hst
      simp [hst, hb]
    · simp [RoomsGateway.readyH, hs, hb] at h2
      have hst := switchReady_state s rid n room hroom
      rw [h2] at hst
      simp only [Option.map_some'] at hst
      injection hst with hst
      rw [hst, hw]
      simp [hb]
  · intro a ha room2 h2
    intro hq
    rcases sp_step_nonready s a ha rid room2 h2 with h2a | h2a | ⟨room3, hr3, he⟩
    · rw [h2a] at hq
      cases hq
    · rw [h2a] at hq
      cases hq
    · rw [hroom] at hr3
      injection hr3 with hr3
      subst hr3
      rw [he, hw] at hq
      cases hq

/-- Witness for the amended C5 at the single-member waiting room: the ready
toggle makes everyone ready, so the room is playing afterwards, and a pass
action on the same waiting room does not make it playing. -/
theorem c5_witness :
    ({ roomName := "r", capacity := 4, state := RState.playing,
       users := [{ socketId := "s1", userName := "A", ready := true,
                   passed := false, items := [] }],
       timer := none, itemCreator := some 0 } : Room).state = RState.playing ↔
      RoomsService.allUserReady
        (RoomsService.switchReady (run init (trace1.take 4)) 1 "A").1 1 = true :=
  (c5_start_iff_all_ready (run init (trace1.take 4)) "s1"
      { user := some "A", roomId := some 1, passed := false } "A" 1
      { roomName := "r", capacity := 4, state := RState.waiting,
        users := [{ socketId := "s1", userName := "A", ready := false,
                    passed := false, items := [] }],
        timer := none, itemCreator := none }
      (by decide) rfl rfl (by decide) rfl).1
    { roomName := "r", capacity := 4, state := RState.playing,
      users := [{ socketId := "s1", userName := "A", ready := true,
                  passed := false, items := [] }],
      timer := none, itemCreator := some 0 }
    (by decide)

/-! ### Claim C7: the membership invariant -/

/-- The reachable-state invariant: every room membership is duplicate-free,
no identity is in two rooms, every member has a live registered connection
whose room binding points back at the room, and every authenticated socket
is the registered connection of its user. -/
structure Inv (s : GState) : Prop where
  nodup : ∀ rid room, s.rooms rid = some room → (memberNames room).Nodup
  nodouble : ∀ r1 r2 room1 room2 n, r1 ≠ r2 → s.rooms r1 = some room1 →
    s.rooms r2 = some room2 → n ∈ memberNames room1 → n ∉ memberNames room2
  track : ∀ rid room ru, s.rooms rid = some room → ru ∈ room.users →
    ∃ sd, s.socketIds ru.userName = some ru.socketId ∧
      s.sockets ru.socketId = some sd ∧ sd.user = some ru.userName ∧
      sd.roomId = some rid
  reg : ∀ sid sd n, s.sockets sid = some sd → sd.user = some n →
    s.socketIds n = some sid

theorem memberNames_map_eq (users : List RoomUser) (f : RoomUser → RoomUser)
    (hf : ∀ ru, (f ru).userName = ru.userName) :
    (users.map f).map (fun ru => ru.userName) =
      users.map (fun ru => ru.userName) := by
  induction users with
  | nil => rfl
  | cons a l ih => simp [hf, ih]

/-- A member of a room forces the room binding of the single registered
connection of that identity. -/
theorem Inv.name_mem_roomId {s : GState} (hI : Inv s) {rid : RoomId}
    {room : Room} {n : String} (hroom : s.rooms rid = some room)
    (hmem : n ∈ memberNames room) {sid : String} {sd : SocketData}
    (hs : s.sockets sid = some sd) (hu : sd.user = some n) :
    sd.roomId = some rid := by
  obtain ⟨ru, hru, hname⟩ := List.mem_map.mp hmem
  subst hname
  obtain ⟨sd', hids, hsock, hu', hrid⟩ := hI.track rid room ru hroom hru
  have hreg := hI.reg sid sd ru.userName hs hu
  rw [hids] at hreg
  injection hreg with hreg
  rw [← hreg] at hs
  rw [hsock] at hs
  injection hs with hs
  rw [← hs]
  exact hrid

/-! Frame lemmas: which fields each service operation leaves unchanged. -/

theorem exitRoom_sockets (s : GState) (orid : Option RoomId) (n : String) :
    (RoomsService.exitRoom s orid n).1.sockets = s.sockets := by
  unfold RoomsService.exitRoom
  cases orid with
  | none => rfl
  | some rid2 =>
    cases h : s.rooms rid2 with
    | none => simp only [h]
    | some room =>
      simp only [h]
      split <;> rfl

theorem exitRoom_socketIds (s : GState) (orid : Option RoomId) (n : String) :
    (RoomsService.exitRoom s orid n).1.socketIds = s.socketIds := by
  unfold RoomsService.exitRoom
  cases orid with
  | none => rfl
  | some rid2 =>
    cases h : s.rooms rid2 with
    | none => simp only [h]
    | some room =>
      simp only [h]
      split <;> rfl

theorem enterRoom_ok_sockets {s s2 : GState} {rid0 : RoomId}
    {prev : Option RoomId} {ru : RoomUser}
    (hok : RoomsService.enterRoom s rid0 prev ru = Except.ok s2) :
    s2.sockets = s.sockets ∧ s2.socketIds = s.socketIds := by
  unfold RoomsService.enterRoom at hok
  cases h : s.rooms rid0 with
  | none =>
    simp only [h] at hok
    cases hok
  | some room =>
    simp only [h] at hok
    split at hok
    · cases hok
    · split at hok
      · injection hok with hok
        subst hok
        exact ⟨rfl, rfl⟩
      · cases h1 : (RoomsService.exitRoom s prev ru.userName).1.rooms rid0 with
        | none =>
          simp only [h1] at hok
          cases hok
        | some room1 =>
          simp only [h1] at hok
          injection hok with hok
          subst hok
          exact ⟨exitRoom_sockets s prev ru.userName,
                 exitRoom_socketIds s prev ru.userName⟩

theorem inv_untouched {s s2 : GState} (hI : Inv s) (hrooms : s2.rooms = s.rooms)
    (hsock : s2.sockets = s.sockets) (hids : s2.socketIds = s.socketIds) :
    Inv s2 := by
  constructor
  · intro rid room h
    rw [hrooms] at h
    exact hI.nodup rid room h
  · intro r1 r2 room1 room2 n hne h1 h2
    rw [hrooms] at h1 h2
    exact hI.nodouble r1 r2 room1 room2 n hne h1 h2
  · intro rid room ru h hm
    rw [hrooms] at h
    obtain ⟨sd, a, b, c, d⟩ := hI.track rid room ru h hm
    exact ⟨sd, by rw [hids]; exact a, by rw [hsock]; exact b, c, d⟩
  · intro sid sd n h hu
    rw [hsock] at h
    rw [hids]
    exact hI.reg sid sd n h hu

theorem inv_roomUpdate {s s2 : GState} {rid : RoomId} {room room2 : Room}
    (hI : Inv s) (hroom : s.rooms rid = some room)
    (hrooms : s2.rooms = fupd s.rooms rid (some room2))
    (hsock : s2.sockets = s.sockets) (hids : s2.socketIds = s.socketIds)
    (hnames : memberNames room2 = memberNames room)
    (hproj : ∀ ru2 ∈ room2.users, ∃ ru ∈ room.users,
      ru2.userName = ru.userName ∧ ru2.socketId = ru.socketId) : Inv s2 := by
  constructor
  · intro rid' room' h'
    rw [hrooms] at h'
    rcases fupd_cases h' with ⟨he, ho⟩ | ⟨he, ho⟩
    · injection ho with ho
      subst ho
      rw [hnames]
      exact hI.nodup rid room hroom
    · exact hI.nodup rid' room' ho
  · intro r1 r2 room1' room2' n hne h1 h2 hmem
    rw [hrooms] at h1 h2
    rcases fupd_cases h1 with ⟨he1, ho1⟩ | ⟨he1, ho1⟩ <;>
      rcases fupd_cases h2 with ⟨he2, ho2⟩ | ⟨he2, ho2⟩
    · exact absurd (he1.trans he2.symm) hne
    · injection ho1 with ho1
      rw [← ho1] at hmem
      rw [hnames] at hmem
      rw [he1] at hne
      exact hI.nodouble rid r2 room room2' n hne hroom ho2 hmem
    · injection ho2 with ho2
      rw [← ho2, hnames]
      rw [he2] at hne
      exact hI.nodouble r1 rid room1' room n hne ho1 hroom hmem
    · exact hI.nodouble r1 r2 room1' room2' n hne ho1 ho2 hmem
  · intro rid' room' ru h' hm
    rw [hrooms] at h'
    rcases fupd_cases h' with ⟨he, ho⟩ | ⟨he, ho⟩
    · injection ho with ho
      rw [← ho] at hm
      obtain ⟨ru0, hm0, hn0, hs0⟩ := hproj ru hm
      obtain ⟨sd, a, b, c, d⟩ := hI.track rid room ru0 hroom hm0
      refine ⟨sd, ?_, ?_, ?_, ?_⟩
      · rw [hids, hn0, hs0]
        exact a
      · rw [hsock, hs0]
        exact b
      · rw [hn0]
        exact c
      · rw [he]
        exact d
    · obtain ⟨sd, a, b, c, d⟩ := hI.track rid' room' ru ho hm
      exact ⟨sd, by rw [hids]; exact a, by rw [hsock]; exact b, c, d⟩
  · intro sid sd n h hu
    rw [hsock] at h
    rw [hids]
    exact hI.reg sid sd n h hu

theorem inv_roomSublist {s s2 : GState} {rid : RoomId} {room room2 : Room}
    (hI : Inv s) (hroom : s.rooms rid = some room)
    (hrooms : s2.rooms = fupd s.rooms rid (some room2))
    (hsock : s2.sockets = s.sockets) (hids : s2.socketIds = s.socketIds)
    (hsub : room2.users.Sublist room.users) : Inv s2 := by
  have hnsub : (memberNames room2).Sublist (memberNames room) := by
    unfold memberNames
    exact hsub.map _
  constructor
  · intro rid' room' h'
    rw [hrooms] at h'
    rcases fupd_cases h' with ⟨he, ho⟩ | ⟨he, ho⟩
    · injection ho with ho
      subst ho
      exact (hI.nodup rid room hroom).sublist hnsub
    · exact hI.nodup rid' room' ho
  · intro r1 r2 room1' room2' n hne h1 h2 hmem
    rw [hrooms] at h1 h2
    rcases fupd_cases h1 with ⟨he1, ho1⟩ | ⟨he1, ho1⟩ <;>
      rcases fupd_cases h2 with ⟨he2, ho2⟩ | ⟨he2, ho2⟩
    · exact absurd (he1.trans he2.symm) hne
    · injection ho1 with ho1
      rw [← ho1] at hmem
      rw [he1] at hne
      exact hI.nodouble rid r2 room room2' n hne hroom ho2 (hnsub.subset hmem)
    · injection ho2 with ho2
      rw [← ho2]
      rw [he2] at hne
      intro hmem2
      exact hI.nodouble r1 rid room1' room n hne ho1 hroom hmem (hnsub.subset hmem2)
    · exact hI.nodouble r1 r2 room1' room2' n hne ho1 ho2 hmem
  · intro rid' room' ru h' hm
    rw [hrooms] at h'
    rcases fupd_cases h' with ⟨he, ho⟩ | ⟨he, ho⟩
    · injection ho with ho
      rw [← ho] at hm
      obtain ⟨sd, a, b, c, d⟩ := hI.track rid room ru hroom (hsub.subset hm)
      exact ⟨sd, by rw [hids]; exact a, by rw [hsock]; exact b, c,
        by rw [he]; exact d⟩
    · obtain ⟨sd, a, b, c, d⟩ := hI.track rid' room' ru ho hm
      exact ⟨sd, by rw [hids]; exact a, by rw [hsock]; exact b, c, d⟩
  · intro sid sd n h hu
    rw [hsock] at h
    rw [hids]
    exact hI.reg sid sd n h hu

theorem inv_roomDelete {s s2 : GState} {rid : RoomId} (hI : Inv s)
    (hrooms : s2.rooms = fupd s.rooms rid none)
    (hsock : s2.sockets = s.sockets) (hids : s2.socketIds = s.socketIds) :
    Inv s2 := by
  constructor
  · intro rid' room' h'
    rw [hrooms] at h'
    rcases fupd_cases h' with ⟨he, ho⟩ | ⟨he, ho⟩
    · cases ho
    · exact hI.nodup rid' room' ho
  · intro r1 r2 room1' room2' n hne h1 h2 hmem
    rw [hrooms] at h1 h2
    rcases fupd_cases h1 with ⟨he1, ho1⟩ | ⟨he1, ho1⟩
    · cases ho1
    · rcases fupd_cases h2 with ⟨he2, ho2⟩ | ⟨he2, ho2⟩
      · cases ho2
      · exact hI.nodouble r1 r2 room1' room2' n hne ho1 ho2 hmem
  · intro rid' room' ru h' hm
    rw [hrooms] at h'
    rcases fupd_cases h' with ⟨he, ho⟩ | ⟨he, ho⟩
    · cases ho
    · obtain ⟨sd, a, b, c, d⟩ := hI.track rid' room' ru ho hm
      exact ⟨sd, by rw [hids]; exact a, by rw [hsock]; exact b, c, d⟩
  · intro sid sd n h hu
    rw [hsock] at h
    rw [hids]
    exact hI.reg sid sd n h hu

theorem inv_emptyRoomUpdate {s s2 : GState} {rid : RoomId} {room2 : Room}
    (hI : Inv s) (hrooms : s2.rooms = fupd s.rooms rid (some room2))
    (hempty : room2.users = [])
    (hsock : s2.sockets = s.sockets) (hids : s2.socketIds = s.socketIds) :
    Inv s2 := by
  have hnames : memberNames room2 = [] := by simp [memberNames, hempty]
  constructor
  · intro rid' room' h'
    rw [hrooms] at h'
    rcases fupd_cases h' with ⟨he, ho⟩ | ⟨he, ho⟩
    · injection ho with ho
      subst ho
      rw [hnames]
      exact List.nodup_nil
    · exact hI.nodup rid' room' ho
  · intro r1 r2 room1' room2' n hne h1 h2 hmem
    rw [hrooms] at h1 h2
    rcases fupd_cases h1 with ⟨he1, ho1⟩ | ⟨he1, ho1⟩ <;>
      rcases fupd_cases h2 with ⟨he2, ho2⟩ | ⟨he2, ho2⟩
    · exact absurd (he1.trans he2.symm) hne
    · injection ho1 with ho1
      subst ho1
      rw [hnames] at hmem
      cases hmem
    · injection ho2 with ho2
      subst ho2
      rw [hnames]
      exact List.not_mem_nil n
    · exact hI.nodouble r1 r2 room1' room2' n hne ho1 ho2 hmem
  · intro rid' room' ru h' hm
    rw [hrooms] at h'
    rcases fupd_cases h' with ⟨he, ho⟩ | ⟨he, ho⟩
    · injection ho with ho
      subst ho
      rw [hempty] at hm
      cases hm
    · obtain ⟨sd, a, b, c, d⟩ := hI.track rid' room' ru ho hm
      exact ⟨sd, by rw [hids]; exact a, by rw [hsock]; exact b, c, d⟩
  · intro sid sd n h hu
    rw [hsock] at h
    rw [hids]
    exact hI.reg sid sd n h hu

theorem inv_sock_update {s s2 : GState} {sid : String} {sd sd2 : SocketData}
    (hI : Inv s) (hs : s.sockets sid = some sd)
    (hu2 : sd2.user = sd.user) (hr2 : sd2.roomId = sd.roomId)
    (hrooms : s2.rooms = s.rooms)
    (hsock : s2.sockets = fupd s.sockets sid (some sd2))
    (hids : s2.socketIds = s.socketIds) : Inv s2 := by
  constructor
  · intro rid room h
    rw [hrooms] at h
    exact hI.nodup rid room h
  · intro r1 r2 room1 room2 n hne h1 h2
    rw [hrooms] at h1 h2
    exact hI.nodouble r1 r2 room1 room2 n hne h1 h2
  · intro rid room ru h hm
    rw [hrooms] at h
    obtain ⟨sd', a, b, c, d⟩ := hI.track rid room ru h hm
    by_cases he : ru.socketId = sid
    · have hsd : sd' = sd := by
        rw [he] at b
        rw [b] at hs
        injection hs
      refine ⟨sd2, ?_, ?_, ?_, ?_⟩
      · rw [hids]
        exact a
      · rw [hsock, he, fupd_self]
      · rw [hu2, ← hsd]
        exact c
      · rw [hr2, ← hsd]
        exact d
    · exact ⟨sd', by rw [hids]; exact a,
        by rw [hsock, fupd_ne _ _ _ he]; exact b, c, d⟩
  · intro sid' sd' n h' hu'
    rw [hsock] at h'
    rw [hids]
    by_cases he : sid' = sid
    · subst he
      rw [fupd_self] at h'
      injection h' with h'
      subst h'
      exact hI.reg sid' sd n hs (hu2.symm.trans hu')
    · rw [fupd_ne _ _ _ he] at h'
      exact hI.reg sid' sd' n h' hu'

theorem inv_remove_socket {s s2 : GState} {sid : String} (hI : Inv s)
    (hno : ∀ rid room ru, s.rooms rid = some room → ru ∈ room.users →
      ru.socketId ≠ sid)
    (hrooms : s2.rooms = s.rooms)
    (hsock : s2.sockets = fupd s.sockets sid none)
    (hids : s2.socketIds = s.socketIds) : Inv s2 := by
  constructor
  · intro rid room h
    rw [hrooms] at h
    exact hI.nodup rid room h
  · intro r1 r2 room1 room2 n hne h1 h2
    rw [hrooms] at h1 h2
    exact hI.nodouble r1 r2 room1 room2 n hne h1 h2
  · intro rid room ru h hm
    rw [hrooms] at h
    obtain ⟨sd', a, b, c, d⟩ := hI.track rid room ru h hm
    exact ⟨sd', by rw [hids]; exact a,
      by rw [hsock, fupd_ne _ _ _ (hno rid room ru h hm)]; exact b, c, d⟩
  · intro sid' sd' n h' hu'
    rw [hsock] at h'
    rw [hids]
    by_cases he : sid' = sid
    · subst he
      rw [fupd_self] at h'
      cases h'
    · rw [fupd_ne _ _ _ he] at h'
      exact hI.reg sid' sd' n h' hu'

theorem inv_connect {s s2 : GState} {sid n : String} (hI : Inv s)
    (hfresh : s.sockets sid = none) (hnew : s.socketIds n = none)
    (hrooms : s2.rooms = s.rooms)
    (hsock : s2.sockets =
      fupd s.sockets sid (some { user := some n, roomId := none, passed := false }))
    (hids : s2.socketIds = fupd s.socketIds n (some sid)) : Inv s2 := by
  constructor
  · intro rid room h
    rw [hrooms] at h
    exact hI.nodup rid room h
  · intro r1 r2 room1 room2 m hne h1 h2
    rw [hrooms] at h1 h2
    exact hI.nodouble r1 r2 room1 room2 m hne h1 h2
  · intro rid room ru h hm
    rw [hrooms] at h
    obtain ⟨sd, a, b, c, d⟩ := hI.track rid room ru h hm
    have hnname : ru.userName ≠ n := by
      intro he
      rw [he, hnew] at a
      cases a
    have hnsid : ru.socketId ≠ sid := by
      intro he
      rw [he, hfresh] at b
      cases b
    exact ⟨sd, by rw [hids, fupd_ne _ _ _ hnname]; exact a,
      by rw [hsock, fupd_ne _ _ _ hnsid]; exact b, c, d⟩
  · intro sid' sd' m h' hu'
    rw [hsock] at h'
    rw [hids]
    by_cases he : sid' = sid
    · subst he
      rw [fupd_self] at h'
      injection h' with h'
      subst h'
      have hm : m = n := by
        injection hu' with hu'
        exact hu'.symm
      subst hm
      rw [fupd_self]
    · rw [fupd_ne _ _ _ he] at h'
      have hreg := hI.reg sid' sd' m h' hu'
      by_cases hm : m = n
      · subst hm
        rw [hreg] at hnew
        cases hnew
      · rw [fupd_ne _ _ _ hm]
        exact hreg

theorem inv_exitRoom {s : GState} (hI : Inv s) (orid : Option RoomId) (n : String) :
    Inv (RoomsService.exitRoom s orid n).1 := by
  unfold RoomsService.exitRoom
  cases orid with
  | none => exact hI
  | some rid2 =>
    cases h : s.rooms rid2 with
    | none =>
      simp only [h]
      exact hI
    | some room =>
      simp only [h]
      split
      · exact inv_roomDelete hI rfl rfl rfl
      · exact inv_roomSublist hI h rfl rfl rfl (List.filter_sublist _)

theorem inv_kickS {s : GState} (hI : Inv s) (rid2 : RoomId) (target : String) :
    Inv (RoomsService.kick s rid2 target).1 := by
  unfold RoomsService.kick
  cases h : s.rooms rid2 with
  | none =>
    simp only [h]
    exact hI
  | some room =>
    simp only [h]
    split
    · exact inv_roomSublist hI h rfl rfl rfl (List.filter_sublist _)
    · exact hI

theorem inv_switchReady {s : GState} (hI : Inv s) (rid2 : RoomId) (n : String) :
    Inv (RoomsService.switchReady s rid2 n).1 := by
  unfold RoomsService.switchReady
  cases h : s.rooms rid2 with
  | none =>
    simp only [h]
    exact hI
  | some room =>
    simp only [h]
    refine inv_roomUpdate hI h rfl rfl rfl ?_ ?_
    · unfold memberNames
      exact memberNames_map_eq _ _
        (fun ru => by by_cases hc : (ru.userName == n) = true <;> simp [hc])
    · intro ru2 hm2
      obtain ⟨ru, hru, hfe⟩ := List.mem_map.mp hm2
      subst hfe
      refine ⟨ru, hru, ?_, ?_⟩ <;>
        by_cases hc : (ru.userName == n) = true <;> simp [hc]

theorem inv_useItemS {s : GState} (hI : Inv s) (rid2 : RoomId) (n item : String) :
    Inv (RoomsService.useItem s rid2 n item).1 := by
  unfold RoomsService.useItem
  cases h : s.rooms rid2 with
  | none =>
    simp only [h]
    exact hI
  | some room =>
    simp only [h]
    cases hf : room.users.find? (fun x => x.userName == n) with
    | none =>
      simp only [hf]
      exact hI
    | some ru =>
      simp only [hf]
      split
      · refine inv_roomUpdate hI h rfl rfl rfl ?_ ?_
        · unfold memberNames
          exact memberNames_map_eq _ _
            (fun x => by by_cases hc : (x.userName == n) = true <;> simp [hc])
        · intro ru2 hm2
          obtain ⟨x, hx, hfe⟩ := List.mem_map.mp hm2
          subst hfe
          refine ⟨x, hx, ?_, ?_⟩ <;>
            by_cases hc : (x.userName == n) = true <;> simp [hc]
      · exact hI

theorem inv_gameOver {s : GState} (hI : Inv s) (rid2 : RoomId) :
    Inv (RoomsService.gameOver s rid2) := by
  unfold RoomsService.gameOver
  cases h : s.rooms rid2 with
  | none =>
    simp only [h]
    exact hI
  | some room =>
    simp only [h]
    exact inv_roomUpdate hI h rfl rfl rfl rfl (fun ru2 hm2 => ⟨ru2, hm2, rfl, rfl⟩)

theorem inv_setTimer {s : GState} (hI : Inv s) (rid2 : RoomId) (t : Nat) :
    Inv (RoomsService.setTimer s rid2 t) := by
  unfold RoomsService.setTimer
  cases h : s.rooms rid2 with
  | none =>
    simp only [h]
    exact hI
  | some room =>
    simp only [h]
    exact inv_roomUpdate hI h rfl rfl rfl rfl (fun ru2 hm2 => ⟨ru2, hm2, rfl, rfl⟩)

theorem inv_setItemCreator {s : GState} (hI : Inv s) (rid2 : RoomId) (t : Nat) :
    Inv (RoomsService.setItemCreator s rid2 t) := by
  unfold RoomsService.setItemCreator
  cases h : s.rooms rid2 with
  | none =>
    simp only [h]
    exact hI
  | some room =>
    simp only [h]
    exact inv_roomUpdate hI h rfl rfl rfl rfl (fun ru2 hm2 => ⟨ru2, hm2, rfl, rfl⟩)

theorem inv_changeRoomState {s : GState} (hI : Inv s) (rid2 : RoomId) (st : RState) :
    Inv (RoomsService.changeRoomState s rid2 st) := by
  unfold RoomsService.changeRoomState
  cases h : s.rooms rid2 with
  | none =>
    simp only [h]
    exact hI
  | some room =>
    simp only [h]
    exact inv_roomUpdate hI h rfl rfl rfl rfl (fun ru2 hm2 => ⟨ru2, hm2, rfl, rfl⟩)

theorem inv_createRoomS {s : GState} (hI : Inv s) (name : String) (cap : Nat) :
    Inv (RoomsService.createRoom s name cap).1 := by
  unfold RoomsService.createRoom
  exact inv_emptyRoomUpdate hI rfl rfl rfl rfl

/-- After a user exits via its own room binding, the user is a member of no
room at all. -/
theorem exitRoom_not_mem {s : GState} (hI : Inv s) {sid : String}
    {sd : SocketData} {n : String}
    (hs : s.sockets sid = some sd) (hu : sd.user = some n) :
    ∀ rid' room', (RoomsService.exitRoom s sd.roomId n).1.rooms rid' = some room' →
      n ∉ memberNames room' := by
  intro rid' room' h' hmem
  cases hrid : sd.roomId with
  | none =>
    rw [hrid] at h'
    have hx := hI.name_mem_roomId h' hmem hs hu
    rw [hrid] at hx
    cases hx
  | some rid2 =>
    rw [hrid] at h'
    unfold RoomsService.exitRoom at h'
    cases h3 : s.rooms rid2 with
    | none =>
      simp only [h3] at h'
      have hx := hI.name_mem_roomId h' hmem hs hu
      rw [hrid] at hx
      injection hx with hx
      rw [← hx] at h'
      rw [h3] at h'
      cases h'
    | some room =>
      simp only [h3] at h'
      split at h'
      · rcases fupd_cases h' with ⟨he, ho⟩ | ⟨he, ho⟩
        · cases ho
        · have hx := hI.name_mem_roomId ho hmem hs hu
          rw [hrid] at hx
          injection hx with hx
          exact he hx.symm
      · rcases fupd_cases h' with ⟨he, ho⟩ | ⟨he, ho⟩
        · injection ho with ho
          rw [← ho] at hmem
          unfold memberNames at hmem
          obtain ⟨ru, hru, hname⟩ := List.mem_map.mp hmem
          rw [List.mem_filter] at hru
          rw [hname] at hru
          simp at hru
        · have hx := hI.name_mem_roomId ho hmem hs hu
          rw [hrid] at hx
          injection hx with hx
          exact he hx.symm

/-- The state effect of a disconnect with an authenticated user: exit the
current room, then drop the registry entry. -/
theorem handleDisconnect_state {s : GState} {sid n : String} {sd : SocketData}
    (hs : s.sockets sid = some sd) (hu : sd.user = some n) :
    (RoomsGateway.handleDisconnect s sid).1 =
      RoomsService.deleteSocketId (RoomsService.exitRoom s sd.roomId n).1 n := by
  unfold RoomsGateway.handleDisconnect
  simp only [hs, hu]
  cases hrid : sd.roomId with
  | none => rfl
  | some rid2 =>
    simp only [hrid]
    split
    · rfl
    · split <;> rfl

theorem inv_disconnect_final {s s3 : GState} {sid n : String} {sd : SocketData}
    (hI : Inv s) (hs : s.sockets sid = some sd) (hu : sd.user = some n)
    (hrooms : s3.rooms = (RoomsService.exitRoom s sd.roomId n).1.rooms)
    (hsock : s3.sockets = fupd s.sockets sid none)
    (hids : s3.socketIds = fupd s.socketIds n none) : Inv s3 := by
  have hIex : Inv (RoomsService.exitRoom s sd.roomId n).1 := inv_exitRoom hI _ _
  have hnm := exitRoom_not_mem hI hs hu
  have hsEx := exitRoom_sockets s sd.roomId n
  have hiEx := exitRoom_socketIds s sd.roomId n
  constructor
  · intro rid room h
    rw [hrooms] at h
    exact hIex.nodup rid room h
  · intro r1 r2 room1 room2 m hne h1 h2
    rw [hrooms] at h1 h2
    exact hIex.nodouble r1 r2 room1 room2 m hne h1 h2
  · intro rid room ru h hm
    rw [hrooms] at h
    obtain ⟨sd', a, b, c, d⟩ := hIex.track rid room ru h hm
    have hname : ru.userName ≠ n := by
      intro hh
      exact hnm rid room h (hh ▸ List.mem_map_of_mem _ hm)
    have hsid : ru.socketId ≠ sid := by
      intro hh
      rw [hsEx, hh, hs] at b
      injection b with b
      rw [← b] at c
      rw [hu] at c
      injection c with c
      exact hname c.symm
    refine ⟨sd', ?_, ?_, c, d⟩
    · rw [hids, fupd_ne _ _ _ hname]
      rw [hiEx] at a
      exact a
    · rw [hsock, fupd_ne _ _ _ hsid]
      rw [hsEx] at b
      exact b
  · intro sid' sd' m h' hu'
    rw [hsock] at h'
    rw [hids]
    by_cases he : sid' = sid
    · subst he
      rw [fupd_self] at h'
      cases h'
    · rw [fupd_ne _ _ _ he] at h'
      have hreg := hI.reg sid' sd' m h' hu'
      by_cases hm2 : m = n
      · subst hm2
        have hreg2 := hI.reg sid sd m hs hu
        rw [hreg] at hreg2
        injection hreg2 with hreg2
        exact absurd hreg2 he
      · rw [fupd_ne _ _ _ hm2]
        exact hreg

theorem fupd_fupd_self {α β : Type} [DecidableEq α] (f : α → β) (a : α) (b c : β) :
    fupd (fupd f a b) a c = fupd f a c := by
  funext x
  by_cases h : x = a <;> simp [fupd, h]

/-- Adding a fresh member (one that is in no room) to a room, while binding
its connection to that room, preserves the invariant. -/
theorem inv_addMember {s0 s2 : GState} {rid0 : RoomId} {roomB : Room}
    {sid n : String} {sd0 : SocketData}
    (hI0 : Inv s0) (hroomB : s0.rooms rid0 = some roomB)
    (hnot : ∀ rid' room', s0.rooms rid' = some room' → n ∉ memberNames room')
    (hsock0 : s0.sockets sid = some sd0) (hu0 : sd0.user = some n)
    (hreg0 : s0.socketIds n = some sid)
    (hrooms : s2.rooms = fupd s0.rooms rid0 (some { roomB with users :=
      roomB.users ++
        [{ socketId := sid, userName := n, ready := false, passed := false,
           items := [] }] }))
    (hsock : s2.sockets = fupd s0.sockets sid (some { sd0 with roomId := some rid0 }))
    (hids : s2.socketIds = s0.socketIds) : Inv s2 := by
  have hnames : memberNames { roomB with users := roomB.users ++
      [{ socketId := sid, userName := n, ready := false, passed := false,
         items := [] }] } = memberNames roomB ++ [n] := by
    simp [memberNames]
  constructor
  · intro rid' room' h'
    rw [hrooms] at h'
    rcases fupd_cases h' with ⟨he, ho⟩ | ⟨he, ho⟩
    · injection ho with ho
      rw [← ho, hnames]
      refine (hI0.nodup rid0 roomB hroomB).append (List.nodup_singleton n) ?_
      intro a ha hb
      rw [List.mem_singleton] at hb
      subst hb
      exact hnot rid0 roomB hroomB ha
    · exact hI0.nodup rid' room' ho
  · intro r1 r2 room1' room2' m hne h1 h2 hmem
    rw [hrooms] at h1 h2
    rcases fupd_cases h1 with ⟨he1, ho1⟩ | ⟨he1, ho1⟩ <;>
      rcases fupd_cases h2 with ⟨he2, ho2⟩ | ⟨he2, ho2⟩
    · exact absurd (he1.trans he2.symm) hne
    · injection ho1 with ho1
      rw [← ho1, hnames] at hmem
      rw [he1] at hne
      rcases List.mem_append.mp hmem with hmm | hmm
      · exact hI0.nodouble rid0 r2 roomB room2' m hne hroomB ho2 hmm
      · rw [List.mem_singleton] at hmm
        subst hmm
        exact hnot r2 room2' ho2
    · injection ho2 with ho2
      rw [← ho2, hnames]
      rw [he2] at hne
      intro hmm
      rcases List.mem_append.mp hmm with hmm2 | hmm2
      · exact hI0.nodouble r1 rid0 room1' roomB m hne ho1 hroomB hmem hmm2
      · rw [List.mem_singleton] at hmm2
        subst hmm2
        exact hnot r1 room1' ho1 hmem
    · exact hI0.nodouble r1 r2 room1' room2' m hne ho1 ho2 hmem
  · intro rid' room' ru h' hm
    rw [hrooms] at h'
    rcases fupd_cases h' with ⟨he, ho⟩ | ⟨he, ho⟩
    · injection ho with ho
      rw [← ho] at hm
      rcases List.mem_append.mp hm with hm' | hm'
      · obtain ⟨sd', a, b, c, d⟩ := hI0.track rid0 roomB ru hroomB hm'
        have hname : ru.userName ≠ n := by
          intro hh
          exact hnot rid0 roomB hroomB (hh ▸ List.mem_map_of_mem _ hm')
        have hsid2 : ru.socketId ≠ sid := by
          intro hh
          rw [hh, hsock0] at b
          injection b with b
          rw [← b] at c
          rw [hu0] at c
          injection c with c
          exact hname c.symm
        refine ⟨sd', ?_, ?_, c, ?_⟩
        · rw [hids]
          exact a
        · rw [hsock, fupd_ne _ _ _ hsid2]
          exact b
        · rw [he]
          exact d
      · rw [List.mem_singleton] at hm'
        subst hm'
        refine ⟨{ sd0 with roomId := some rid0 }, ?_, ?_, ?_, ?_⟩
        · rw [hids]
          exact hreg0
        · simp [hsock, fupd]
        · exact hu0
        · rw [he]
    · obtain ⟨sd', a, b, c, d⟩ := hI0.track rid' room' ru ho hm
      have hname : ru.userName ≠ n := by
        intro hh
        exact hnot rid' room' ho (hh ▸ List.mem_map_of_mem _ hm)
      have hsid2 : ru.socketId ≠ sid := by
        intro hh
        rw [hh, hsock0] at b
        injection b with b
        rw [← b] at c
        rw [hu0] at c
        injection c with c
        exact hname c.symm
      exact ⟨sd', by rw [hids]; exact a,
        by rw [hsock, fupd_ne _ _ _ hsid2]; exact b, c, d⟩
  · intro sid' sd' m h' hu'
    rw [hsock] at h'
    rw [hids]
    by_cases he : sid' = sid
    · subst he
      rw [fupd_self] at h'
      injection h' with h'
      subst h'
      have hm2 : m = n := by
        have hx : sd0.user = some m := hu'
        rw [hu0] at hx
        injection hx with hx
        exact hx.symm
      subst hm2
      exact hreg0
    · rw [fupd_ne _ _ _ he] at h'
      exact hI0.reg sid' sd' m h' hu'

/-- The full state effect of a successful enter: the service moves the
member and the gateway rebinds the socket; the invariant is preserved. -/
theorem inv_enter_bind {s s1 : GState} {sid n : String} {sd : SocketData}
    {rid0 : RoomId} (hI : Inv s)
    (hs : s.sockets sid = some sd) (hu : sd.user = some n)
    (hok : RoomsService.enterRoom s rid0 sd.roomId
      { socketId := sid, userName := n, ready := false, passed := false,
        items := [] } = Except.ok s1) :
    Inv { s1 with sockets := fupd s1.sockets sid (some { sd with roomId := some rid0 }) } := by
  unfold RoomsService.enterRoom at hok
  cases h : s.rooms rid0 with
  | none =>
    simp only [h] at hok
    cases hok
  | some room =>
    simp only [h] at hok
    split at hok
    · cases hok
    · split at hok
      · rename_i hprev
        injection hok with hok
        subst hok
        have hISh : Inv { s with rooms := fupd s.rooms rid0 (some { room with users := room.users.filter (fun x => x.userName != n) }) } :=
          inv_roomSublist hI h rfl rfl rfl (List.filter_sublist _)
        refine inv_addMember hISh (fupd_self _ _ _) ?_ hs hu
          (hI.reg sid sd n hs hu) (fupd_fupd_self _ _ _ _).symm rfl rfl
        intro rid' room' h' hmem
        rcases fupd_cases h' with ⟨he, ho⟩ | ⟨he, ho⟩
        · injection ho with ho
          rw [← ho] at hmem
          unfold memberNames at hmem
          obtain ⟨ru, hru, hname2⟩ := List.mem_map.mp hmem
          rw [List.mem_filter] at hru
          rw [hname2] at hru
          simp at hru
        · have hx := hI.name_mem_roomId ho hmem hs hu
          rw [hprev] at hx
          injection hx with hx
          exact he hx.symm
      · rename_i hprev
        cases h1 : (RoomsService.exitRoom s sd.roomId n).1.rooms rid0 with
        | none =>
          simp only [h1] at hok
          cases hok
        | some room1 =>
          simp only [h1] at hok
          injection hok with hok
          subst hok
          have hIex : Inv (RoomsService.exitRoom s sd.roomId n).1 :=
            inv_exitRoom hI _ _
          have hnm := exitRoom_not_mem hI hs hu
          have hsock0 : (RoomsService.exitRoom s sd.roomId n).1.sockets sid =
              some sd := by
            rw [exitRoom_sockets]
            exact hs
          have hreg0 : (RoomsService.exitRoom s sd.roomId n).1.socketIds n =
              some sid := by
            rw [exitRoom_socketIds]
            exact hI.reg sid sd n hs hu
          exact inv_addMember hIex h1 hnm hsock0 hu hreg0 rfl rfl rfl

/-- Every unit of work preserves the membership invariant. -/
theorem inv_step {s : GState} (hI : Inv s) (a : Act) : Inv (step s a).1 := by
  cases a with
  | connect sid n =>
    by_cases hc : s.sockets sid = none
    · simp only [step, if_pos hc]
      unfold RoomsGateway.handleConnection
      by_cases hcon : RoomsService.isConnectedUser s n = true
      · simp only [hcon, if_true]
        exact hI
      · have hnone : s.socketIds n = none := by
          unfold RoomsService.isConnectedUser at hcon
          cases hx : s.socketIds n with
          | none => rfl
          | some y =>
            rw [hx] at hcon
            simp at hcon
        simp only [hcon, if_false]
        exact inv_connect hI hc hnone rfl rfl rfl
    · simp only [step, if_neg hc]
      exact hI
  | disconnect sid =>
    simp only [step]
    cases hsd : s.sockets sid with
    | none =>
      have hD : RoomsGateway.handleDisconnect s sid = (s, []) := by
        unfold RoomsGateway.handleDisconnect
        simp [hsd]
      rw [hD]
      refine inv_remove_socket hI ?_ rfl rfl rfl
      intro rid room ru h hm he
      obtain ⟨sd', a, b, c, d⟩ := hI.track rid room ru h hm
      rw [he, hsd] at b
      cases b
    | some sd0 =>
      obtain ⟨u, orid, pp⟩ := sd0
      cases u with
      | none =>
        have hD : RoomsGateway.handleDisconnect s sid = (s, []) := by
          unfold RoomsGateway.handleDisconnect
          simp [hsd]
        rw [hD]
        refine inv_remove_socket hI ?_ rfl rfl rfl
        intro rid room ru h hm he
        obtain ⟨sd', a, b, c, d⟩ := hI.track rid room ru h hm
        rw [he, hsd] at b
        injection b with b
        rw [← b] at c
        cases c
      | some n =>
        have hD := handleDisconnect_state hsd rfl
        rw [hD]
        refine inv_disconnect_final hI hsd rfl rfl ?_ ?_
        · show fupd (RoomsService.exitRoom s orid n).1.sockets sid none =
            fupd s.sockets sid none
          rw [exitRoom_sockets]
        · show fupd (RoomsService.exitRoom s orid n).1.socketIds n none =
            fupd s.socketIds n none
          rw [exitRoom_socketIds]
  | enterLobby sid =>
    simp only [step]
    unfold RoomsGateway.enterLobbyH
    cases hsd : s.sockets sid with
    | none =>
      simp only [hsd]
      exact hI
    | some sd0 =>
      obtain ⟨u, orid, pp⟩ := sd0
      cases u with
      | none =>
        simp only [hsd]
        exact hI
      | some n =>
        simp only [hsd]
        cases hok : RoomsService.enterRoom s LOBBY_ID orid
            { socketId := sid, userName := n, ready := false, passed := false,
              items := [] } with
        | error e =>
          simp only [hok]
          exact hI
        | ok s1 =>
          simp only [hok]
          exact inv_enter_bind hI hsd rfl hok
  | exitLobby sid =>
    simp only [step]
    unfold RoomsGateway.exitLobbyH
    cases hsd : s.sockets sid with
    | none =>
      simp only [hsd]
      exact hI
    | some sd0 =>
      obtain ⟨u, orid, pp⟩ := sd0
      cases u with
      | none =>
        simp only [hsd]
        exact hI
      | some n =>
        simp only [hsd]
        exact inv_exitRoom hI _ _
  | createRoom sid name cap =>
    simp only [step]
    unfold RoomsGateway.createRoomH
    cases hsd : s.sockets sid with
    | none =>
      simp only [hsd]
      exact hI
    | some sd0 =>
      obtain ⟨u, orid, pp⟩ := sd0
      cases u with
      | none =>
        simp only [hsd]
        exact hI
      | some n =>
        simp only [hsd]
        exact inv_createRoomS hI name cap
  | enterRoom sid rid0 =>
    simp only [step]
    unfold RoomsGateway.enterRoomH
    cases hsd : s.sockets sid with
    | none =>
      simp only [hsd]
      exact hI
    | some sd0 =>
      obtain ⟨u, orid, pp⟩ := sd0
      cases u with
      | none =>
        simp only [hsd]
        exact hI
      | some n =>
        simp only [hsd]
        cases hok : RoomsService.enterRoom s rid0 orid
            { socketId := sid, userName := n, ready := false, passed := false,
              items := [] } with
        | error e =>
          cases e <;> simp only [hok] <;> exact hI
        | ok s1 =>
          simp only [hok]
          exact inv_enter_bind hI hsd rfl hok
  | exitRoom sid =>
    simp only [step]
    unfold RoomsGateway.exitRoomH
    cases hsd : s.sockets sid with
    | none =>
      simp only [hsd]
      exact hI
    | some sd0 =>
      obtain ⟨u, orid, pp⟩ := sd0
      cases u with
      | none =>
        simp only [hsd]
        exact hI
      | some n =>
        cases orid with
        | none =>
          simp only [hsd]
          exact hI
        | some rid2 =>
          simp only [hsd]
          split <;> exact inv_exitRoom hI _ _
  | ready sid =>
    simp only [step]
    unfold RoomsGateway.readyH
    cases hsd : s.sockets sid with
    | none =>
      simp only [hsd]
      exact hI
    | some sd0 =>
      obtain ⟨u, orid, pp⟩ := sd0
      cases u with
      | none =>
        simp only [hsd]
        exact hI
      | some n =>
        cases orid with
        | none =>
          simp only [hsd]
          exact hI
        | some rid2 =>
          simp only [hsd]
          have h1 : Inv (RoomsService.switchReady s rid2 n).1 :=
            inv_switchReady hI rid2 n
          split
          · unfold RoomsGateway.startH
            refine inv_setItemCreator
              (inv_changeRoomState (inv_untouched h1 ?_ ?_ ?_) rid2
                RState.playing) rid2 _ <;> rfl
          · exact h1
  | kick sid target =>
    simp only [step]
    unfold RoomsGateway.kickH
    cases hsd : s.sockets sid with
    | none =>
      simp only [hsd]
      exact hI
    | some sd0 =>
      obtain ⟨u, orid, pp⟩ := sd0
      cases u with
      | none =>
        simp only [hsd]
        exact hI
      | some n =>
        cases orid with
        | none =>
          simp only [hsd]
          exact hI
        | some rid2 =>
          simp only [hsd]
          cases hg : RoomsService.getSocketId
              (RoomsService.kick s rid2 target).1 target with
          | none =>
            simp only [hg]
            exact inv_kickS hI rid2 target
          | some tsid =>
            simp only [hg]
            exact inv_kickS hI rid2 target
  | useItem sid item =>
    simp only [step]
    unfold RoomsGateway.useItemH
    cases hsd : s.sockets sid with
    | none =>
      simp only [hsd]
      exact hI
    | some sd0 =>
      obtain ⟨u, orid, pp⟩ := sd0
      cases u with
      | none =>
        simp only [hsd]
        exact hI
      | some n =>
        cases orid with
        | none =>
          simp only [hsd]
          exact hI
        | some rid2 =>
          simp only [hsd]
          exact inv_useItemS hI rid2 n item
  | pass sid =>
    simp only [step]
    unfold RoomsGateway.passH
    cases hsd : s.sockets sid with
    | none =>
      simp only [hsd]
      exact hI
    | some sd0 =>
      obtain ⟨u, orid, pp⟩ := sd0
      cases u with
      | none =>
        simp only [hsd]
        exact hI
      | some n =>
        cases orid with
        | none =>
          simp only [hsd]
          exact hI
        | some rid2 =>
          simp only [hsd]
          have h1 : Inv { s with sockets := fupd s.sockets sid (some { user := some n, roomId := some rid2, passed := true }) } :=
            @inv_sock_update s
              { s with sockets := fupd s.sockets sid (some { user := some n, roomId := some rid2, passed := true }) }
              sid { user := some n, roomId := some rid2, passed := pp }
              { user := some n, roomId := some rid2, passed := true }
              hI hsd rfl rfl rfl rfl rfl
          cases hgt : RoomsService.getTimer s rid2 with
          | some t =>
            simp only [hgt]
            split
            · refine inv_gameOver (inv_untouched h1 ?_ ?_ ?_) rid2 <;> rfl
            · exact h1
          | none =>
            simp only [hgt]
            refine inv_setTimer (inv_untouched h1 ?_ ?_ ?_) rid2 _ <;> rfl
  | fire t =>
    simp only [step]
    cases hft : RoomsGateway.fireTimer s t with
    | none =>
      simp only [hft]
      exact hI
    | some r =>
      simp only [hft]
      unfold RoomsGateway.fireTimer at hft
      cases hf : s.pending.find? (fun p => p.1 == t) with
      | none =>
        simp only [hf] at hft
        cases hft
      | some p =>
        simp only [hf] at hft
        injection hft with hft
        subst hft
        refine inv_gameOver (inv_untouched hI ?_ ?_ ?_) p.2 <;> rfl

/-- The invariant holds at process start. -/
theorem inv_init : Inv init := by
  constructor
  · intro rid room h
    have h2 : (if rid = LOBBY_ID then some lobbyRoom else none) = some room := h
    split at h2
    · injection h2 with h2
      rw [← h2]
      exact List.nodup_nil
    · cases h2
  · intro r1 r2 room1 room2 n hne h1 h2 hmem
    have h3 : (if r1 = LOBBY_ID then some lobbyRoom else none) = some room1 := h1
    split at h3
    · injection h3 with h3
      rw [← h3] at hmem
      cases hmem
    · cases h3
  · intro rid room ru h hm
    have h2 : (if rid = LOBBY_ID then some lobbyRoom else none) = some room := h
    split at h2
    · injection h2 with h2
      rw [← h2] at hm
      cases hm
    · cases h2
  · intro sid sd n h hu
    cases h

/-- Claim C7: along every sequence of actions from the initial state, every
room membership is duplicate-free — so the member count equals the number
of distinct identities joined — and no identity is a member of two rooms at
once (entering a room goes through the atomic leave-previous-then-add of
the enter operation, so this holds at every reachable state). -/
theorem c7_membership_invariant (acts : List Act) :
    (∀ rid room, (run init acts).rooms rid = some room →
      (memberNames room).Nodup ∧
      room.users.length = (memberNames room).dedup.length) ∧
    (∀ r1 r2 room1 room2 n, r1 ≠ r2 →
      (run init acts).rooms r1 = some room1 →
      (run init acts).rooms r2 = some room2 →
      n ∈ memberNames room1 → n ∉ memberNames room2) := by
  have hrun : ∀ (s : GState), Inv s → Inv (run s acts) := by
    induction acts with
    | nil => exact fun s hs => hs
    | cons a as ih => exact fun s hs => ih (step s a).1 (inv_step hs a)
  have hInv : Inv (run init acts) := hrun init inv_init
  constructor
  · intro rid room h
    have hnd := hInv.nodup rid room h
    refine ⟨hnd, ?_⟩
    rw [List.dedup_eq_self.mpr hnd]
    unfold memberNames
    rw [List.length_map]
  · exact fun r1 r2 room1 room2 n => hInv.nodouble r1 r2 room1 room2 n

/-- The room of trace3 as it stands at the end. -/
def c7room : Room :=
  { roomName := "r", capacity := 4, state := RState.waiting,
    users :=
      [{ socketId := "s1", userName := "A", ready := false, passed := false,
         items := [] },
       { socketId := "s2", userName := "B", ready := false, passed := false,
         items := [] }],
    timer := none, itemCreator := none }

/-- Witness for C7 at the trace3 end state: the two-member room has
duplicate-free membership whose count equals its identity count, and the
member A of the room is not also in the lobby. -/
theorem c7_witness :
    ((memberNames c7room).Nodup ∧
      c7room.users.length = (memberNames c7room).dedup.length) ∧
    "A" ∉ memberNames lobbyRoom :=
  ⟨(c7_membership_invariant trace3).1 1 c7room (by decide),
   (c7_membership_invariant trace3).2 1 0 c7room lobbyRoom "A"
     (by decide) (by decide) (by decide) (by decide)⟩

end CodeClash
